import Mathlib

/-!
Verification development for the pynb-dag-runner repository.

The Lean definitions below are a shallow embedding of the Python sources:

* `pynb_dag_runner/core/dag_runner.py` — the `Task` record and the
  `run_tasks` scheduler loop (tasks are identified by opaque `Nat` ids,
  Future handles by `Nat` values, and the nondeterministic `ray.wait`
  choice of the next completed task is an explicit `pick` oracle);
* `pynb_dag_runner/opentelemetry_task_span_parser.py` — the span-parser
  data model (`ArtifactContent`, `LoggedValueContent`, `Timing`,
  `TaskRunSummary`, `PipelineSummary`) and `parse_spans`;
* the retry/timeout wrappers of `ray_helpers.py`, whose source file is not
  part of the source tree (only their tests are); these are modelled from
  the specification text.

Python exceptions are modelled with an explicit error type `PyErr` and
fallible code returns `Except PyErr _`.  Pydantic construction-time
validation is modelled by explicit `construct` functions.
-/

set_option autoImplicit false

namespace PynbDagRunner

/-! ### Definitions: shallow embedding of the sources -/

/-- Python exceptions raised by the embedded code.  Each constructor keeps
the identity of one `raise`/`assert` site of the sources:

* `exceptionMsg msg` — `raise Exception(msg)`;
* `assertionError` — a failed `assert` statement;
* `keyError k` — a missing dictionary key `k`;
* `duplicateLoggedValue name` — the parser's
  `ValueError(f"Named value {name} has been logged multiple times.")`;
* `emptySequence` — Python's `ValueError: min() arg is an empty sequence`;
* `unknownType ty` — the serialized-data decoder met an unrecognized type tag;
* `validationError msg` — a pydantic construction-time validation failure. -/
inductive PyErr where
  | exceptionMsg (msg : String)
  | assertionError
  | keyError (k : String)
  | duplicateLoggedValue (name : String)
  | emptySequence
  | unknownType (ty : String)
  | validationError (msg : String)
  deriving DecidableEq

/-- The `Task` record of `dag_runner.py` (lines 13-57): it wraps a remote
callable and holds an optional Future handle, absent until started.
Handles are modelled as `Nat` values. -/
structure Task where
  futureOrNone : Option Nat := none
  deriving DecidableEq

/-- `Task.has_started` (line 35). -/
def Task.has_started (t : Task) : Bool :=
  t.futureOrNone.isSome

/-- `Task.start` (lines 20-27): raises `Exception("Task has already started")`
if the task has started, otherwise binds the Future handle returned by the
wrapped remote callable (the handle produced by `self._f_remote(*args)` is an
explicit argument here). -/
def Task.start (t : Task) (handle : Nat) : Except PyErr Task :=
  if t.has_started then .error (.exceptionMsg "Task has already started")
  else .ok { futureOrNone := some handle }

/-- `_task_can_run` (lines 68-87): a task can run when the `from_node` of
every dependency edge pointing to it is among the completed tasks.
Dependency edges are `(from_node, to_node)` pairs of task ids. -/
def task_can_run (deps : List (Nat × Nat)) (completed : List Nat) (t : Nat) : Bool :=
  ((deps.filter (fun e => e.2 == t)).map (fun e => e.1)).all
    (fun d => completed.contains d)

/-- Scheduler state of the `run_tasks` loop (lines 116-151): the Future
handles bound so far (task id ↦ handle), a fresh-handle counter, the
`completed_tasks` list in completion order, and `iteration_nr`. -/
structure RunState where
  futures : List (Nat × Nat)
  nextHandle : Nat
  completed : List Nat
  iterationNr : Nat
  deriving DecidableEq

/-- `remaining` tasks of the loop: `all_tasks` minus `completed`
(line 148-150 recompute `not_completed_tasks` this way). -/
def remainingTasks (all_tasks completed : List Nat) : List Nat :=
  all_tasks.filter (fun t => !completed.contains t)

/-- `not_completed_tasks_that_can_run` (lines 127-131). -/
def runnableTasks (deps : List (Nat × Nat)) (all_tasks completed : List Nat) : List Nat :=
  (remainingTasks all_tasks completed).filter (task_can_run deps completed)

/-- Lines 136-139: start every runnable task that has not yet started,
binding fresh Future handles.  A task already holding a handle is skipped
(`if not task.has_started()`), so an existing binding is never replaced. -/
def startRunnable (st : RunState) : List Nat → RunState
  | [] => st
  | t :: rest =>
    if (st.futures.lookup t).isSome then startRunnable st rest
    else
      startRunnable
        { st with
          futures := st.futures ++ [(t, st.nextHandle)],
          nextHandle := st.nextHandle + 1 }
        rest

/-- The `ray.wait` pick of `_get_next_completed_task` (lines 90-100),
modelled as an oracle index into the runnable list (empty list: junk 0;
that case is guarded by the caller's assert). -/
def chooseFrom : List Nat → Nat → Nat
  | [], _ => 0
  | x :: xs, k => (x :: xs).get ⟨k % (xs.length + 1), Nat.mod_lt _ (Nat.succ_pos _)⟩

/-- The `while` loop of `run_tasks` (lines 121-150).  Each iteration:
increment `iteration_nr`; compute the runnable tasks; the (dead) guard
`if iteration_nr == 0 and len(...) == 0` raising
`Exception("Check run dependencies, unable to start any task!")`; start all
runnable tasks that have not started; `_get_next_completed_task` asserts
the runnable list is nonempty and blocks until the oracle-chosen task
completes; move it to `completed_tasks`. -/
def run_tasks_loop (deps : List (Nat × Nat)) (all_tasks : List Nat) (pick : Nat → Nat)
    (st : RunState) : Except PyErr RunState :=
  if hnc : (remainingTasks all_tasks st.completed).isEmpty then .ok st
  else
    if (st.iterationNr + 1) == 0 && (runnableTasks deps all_tasks st.completed).isEmpty then
      .error (.exceptionMsg "Check run dependencies, unable to start any task!")
    else
      let st1 := startRunnable { st with iterationNr := st.iterationNr + 1 }
        (runnableTasks deps all_tasks st.completed)
      if hr : (runnableTasks deps all_tasks st.completed).isEmpty then
        .error .assertionError
      else
        run_tasks_loop deps all_tasks pick
          { futures := st1.futures,
            nextHandle := st1.nextHandle,
            completed := st.completed
              ++ [chooseFrom (runnableTasks deps all_tasks st.completed)
                    (pick (st.iterationNr + 1))],
            iterationNr := st.iterationNr + 1 }
termination_by (remainingTasks all_tasks st.completed).length
decreasing_by
  show (remainingTasks all_tasks
      (st.completed ++ [chooseFrom (runnableTasks deps all_tasks st.completed)
        (pick (st.iterationNr + 1))])).length
    < (remainingTasks all_tasks st.completed).length
  have hmemrun : chooseFrom (runnableTasks deps all_tasks st.completed)
      (pick (st.iterationNr + 1)) ∈ runnableTasks deps all_tasks st.completed := by
    rcases hcase : runnableTasks deps all_tasks st.completed with - | ⟨x, xs⟩
    · exact absurd (by rw [hcase]; rfl) hr
    · exact List.get_mem _ _ _
  have hmem : chooseFrom (runnableTasks deps all_tasks st.completed)
      (pick (st.iterationNr + 1)) ∈ remainingTasks all_tasks st.completed :=
    List.Sublist.mem hmemrun (List.filter_sublist _)
  have hfilter : remainingTasks all_tasks
        (st.completed ++ [chooseFrom (runnableTasks deps all_tasks st.completed)
          (pick (st.iterationNr + 1))])
        = (remainingTasks all_tasks st.completed).filter
          (fun t => !(t == chooseFrom (runnableTasks deps all_tasks st.completed)
            (pick (st.iterationNr + 1)))) := by
      unfold remainingTasks
      rw [List.filter_filter]
      apply List.filter_congr
      intro t htmem
      have hca : (st.completed
            ++ [chooseFrom (runnableTasks deps all_tasks st.completed)
              (pick (st.iterationNr + 1))]).contains t
          = (st.completed.contains t
            || t == chooseFrom (runnableTasks deps all_tasks st.completed)
              (pick (st.iterationNr + 1))) := by
        cases hb : t == chooseFrom (runnableTasks deps all_tasks st.completed)
            (pick (st.iterationNr + 1))
        · simp [ne_of_beq_false hb]
        · simp [eq_of_beq hb]
      rw [hca]
      cases h1 : st.completed.contains t <;>
        cases h2 : t == chooseFrom (runnableTasks deps all_tasks st.completed)
          (pick (st.iterationNr + 1)) <;>
        simp [h1, h2]
  rw [hfilter]
  exact List.length_filter_lt_length_iff_exists.mpr ⟨_, hmem, by simp⟩

/-- `run_tasks` (lines 103-153): assert no task has started; run the loop
from the empty `completed_tasks` list with `iteration_nr = 0`; assert all
tasks completed; return `[t.result() for t in completed_tasks]`, where
`result()` of a completed task is its resolved value (`resultOf`). -/
def run_tasks {α : Type} (resultOf : Nat → α) (deps : List (Nat × Nat))
    (all_tasks : List Nat) (pick : Nat → Nat) (initFutures : List (Nat × Nat)) :
    Except PyErr (List α) :=
  if all_tasks.all (fun t => !(initFutures.lookup t).isSome) then
    match run_tasks_loop deps all_tasks pick
      { futures := initFutures, nextHandle := 0, completed := [], iterationNr := 0 } with
    | .error e => .error e
    | .ok st =>
      if all_tasks.all (fun t => st.completed.contains t) then
        .ok (st.completed.map resultOf)
      else
        .error .assertionError
  else
    .error .assertionError

/-- Python runtime values of decoded logged content.  Payloads are kept as
their transported text encodings: no claim depends on a payload value, only
on the runtime type (`str`, `bytes`, `float`, `bool`, `int`, json data). -/
inductive PyValue where
  | pstr (s : String)
  | pbytes (s : String)
  | pfloat (s : String)
  | pbool (s : String)
  | pint (s : String)
  | pjson (s : String)
  deriving DecidableEq

/-- Lexicographic code-point comparison of char lists (Python string `<=`). -/
def charListLe : List Char → List Char → Bool
  | [], _ => true
  | _ :: _, [] => false
  | a :: as, b :: bs =>
    if a.toNat < b.toNat then true
    else if b.toNat < a.toNat then false
    else charListLe as bs

def strLe (a b : String) : Bool :=
  charListLe a.data b.data

/-- Python `min` over a list of strings (ties keep the earlier element);
`None` models the `ValueError` on an empty sequence. -/
def pyMin : List String → Option String
  | [] => none
  | x :: xs => some (xs.foldl (fun acc s => if strLe acc s then acc else s) x)

/-- Python `max` over a list of strings (ties keep the earlier element). -/
def pyMax : List String → Option String
  | [] => none
  | x :: xs => some (xs.foldl (fun acc s => if strLe s acc then acc else s) x)

def charListStarts : List Char → List Char → Bool
  | _, [] => true
  | [], _ :: _ => false
  | c :: cs, p :: ps => c == p && charListStarts cs ps

/-- Python `str.startswith`. -/
def strStarts (s pat : String) : Bool :=
  charListStarts s.data pat.data

/-- Python `dict[k] = v`: replace in place when the key exists, else append. -/
def dictSet {β : Type} (m : List (String × β)) (k : String) (v : β) : List (String × β) :=
  if (m.lookup k).isSome then m.map (fun p => if p.1 == k then (k, v) else p)
  else m ++ [(k, v)]

/-- Python `dict(pairs)`: last value per key wins, insertion order kept. -/
def pyDict {β : Type} (ps : List (String × β)) : List (String × β) :=
  ps.foldl (fun m p => dictSet m p.1 p.2) []

/-- Python `{**a, **b}`. -/
def dictMerge {β : Type} (a b : List (String × β)) : List (String × β) :=
  pyDict (a ++ b)

/-- Python `set(items)`: deduplicated, first-occurrence order. -/
def pySet {β : Type} [BEq β] (items : List β) : List β :=
  items.foldl (fun acc x => if acc.contains x then acc else acc ++ [x]) []

/-- One recorded OpenTelemetry span as read from the persisted trace file
(spec §6): `{context: {span_id}, name, start_time, end_time,
status: {status_code}, attributes, events}`.  The containment relation used
by `Spans.bound_under` is modelled with an explicit optional parent span
id, and `events` keeps the recorded exception events (opaque strings). -/
structure SpanRec where
  span_id : String
  parent_id : Option String
  name : String
  start_time : String
  end_time : String
  status_code : String
  attributes : List (String × String)
  events : List String
  deriving DecidableEq

/-- Modelled from the spec: `Spans.filter(["name"], v)` of
`opentelemetry_helpers.py` (that helper module is not among the sources). -/
def filterByName (spans : List SpanRec) (v : String) : List SpanRec :=
  spans.filter (fun s => s.name == v)

/-- Modelled from the spec: `Spans.filter(["status", "status_code"], v)`. -/
def filterByStatus (spans : List SpanRec) (v : String) : List SpanRec :=
  spans.filter (fun s => s.status_code == v)

/-- Modelled from the spec: the containment test behind
`Spans.bound_under` — "a span bounds all spans whose interval and context
lie within it" — as a fuel-bounded walk up the parent chain. -/
def isUnderAux (spans : List SpanRec) : Nat → Option String → String → Bool
  | _, none, _ => false
  | 0, some p, topId => p == topId
  | fuel + 1, some p, topId =>
    p == topId ||
    (match spans.find? (fun s => s.span_id == p) with
     | none => false
     | some par => isUnderAux spans fuel par.parent_id topId)

/-- Modelled from the spec: `Spans.bound_under(top)` — the spans strictly
contained in `top`. -/
def bound_under (spans : List SpanRec) (top : SpanRec) : List SpanRec :=
  spans.filter (fun s => isUnderAux spans spans.length s.parent_id top.span_id)

/-- Modelled from the spec: `Spans.bound_inclusive(top)` — `top` together
with the spans it bounds. -/
def bound_inclusive (spans : List SpanRec) (top : SpanRec) : List SpanRec :=
  spans.filter
    (fun s => s.span_id == top.span_id
      || isUnderAux spans spans.length s.parent_id top.span_id)

/-- Modelled from the spec: `Spans.get_attributes(allowed_prefixes)` — the
union of all span attributes whose key starts with one of the given
strings (spec §4.4 step 1). -/
def get_attributes (spans : List SpanRec) (allowed : List String) : List (String × String) :=
  pyDict ((spans.foldl (fun acc s => acc ++ s.attributes) []).filter
    (fun p => allowed.any (fun a => strStarts p.1 a)))

/-- Modelled from the spec: `Spans.exception_events()` — the recorded
exception events of a span set, in span order. -/
def exception_events (spans : List SpanRec) : List String :=
  spans.foldl (fun acc s => acc ++ s.events) []

def insertByStart (s : SpanRec) : List SpanRec → List SpanRec
  | [] => [s]
  | t :: ts =>
    if strLe t.start_time s.start_time then t :: insertByStart s ts
    else s :: t :: ts

/-- Modelled from the spec: `Spans.sort_by_start_time()`. -/
def sort_by_start_time (spans : List SpanRec) : List SpanRec :=
  spans.foldr insertByStart []

/-- Dictionary access `m[k]` on a string dict: `KeyError` when absent. -/
def lookupE (m : List (String × String)) (k : String) : Except PyErr String :=
  match m.lookup k with
  | some v => .ok v
  | none => .error (.keyError k)

/-- Dictionary access `span["attributes"][k]`: `KeyError` when absent. -/
def attrOf (s : SpanRec) (k : String) : Except PyErr String :=
  lookupE s.attributes k

/-- Error-propagating map, the effect of materialising a Python generator
or comprehension into a list. -/
def mapE {α β : Type} (f : α → Except PyErr β) : List α → Except PyErr (List β)
  | [] => .ok []
  | x :: xs => (f x).bind (fun y => (mapE f xs).bind (fun ys => .ok (y :: ys)))

/-- `extract_task_dependencies` (lines 35-46): one `(from_task_span_id,
to_task_span_id)` pair per span named "task-dependency", collected as a
Python set. -/
def extract_task_dependencies (spans : List SpanRec) :
    Except PyErr (List (String × String)) :=
  (mapE
      (fun s =>
        (attrOf s "from_task_span_id").bind (fun f =>
          (attrOf s "to_task_span_id").bind (fun t => .ok (f, t))))
      (filterByName spans "task-dependency")).bind
    (fun ps => .ok (pySet ps))

/-- Modelled from the spec: `SerializedData(type, encoding,
encoded_content).decode()` of `task_opentelemetry_logging.py` (not among
the sources).  Spec §4.4 step 5: the decoder dispatches on the declared
type tag and fails loudly (`UnknownTypeError`) on an unrecognized tag;
spec §6: the encoded content is transport-safe and self-describing.
Payload decoding is modelled as carrying the transported text into the
matching runtime type. -/
def serializedData_decode (ty encoding encoded_content : String) :
    Except PyErr PyValue :=
  match ty with
  | "utf-8" => .ok (.pstr encoded_content)
  | "bytes" => .ok (.pbytes encoded_content)
  | "float" => .ok (.pfloat encoded_content)
  | "bool" => .ok (.pbool encoded_content)
  | "int" => .ok (.pint encoded_content)
  | "json" => .ok (.pjson encoded_content)
  | _ => .error (.unknownType ty)

/-- `ArtifactContent` (lines 242-259): pydantic record
`{type : StrictStr, content : Union[StrictStr, StrictBytes]}`. -/
structure ArtifactContent where
  type : String
  content : PyValue
  deriving DecidableEq

/-- Pydantic construction of `ArtifactContent`, fields validated in
declaration order: the `type` validator is `assert v in ["utf-8", "bytes"]`
(line 248); `content` must fit `Union[StrictStr, StrictBytes]`.  No
relation between `type` and the runtime shape of `content` is checked. -/
def ArtifactContent.construct (ty : String) (content : PyValue) :
    Except PyErr ArtifactContent :=
  if ty == "utf-8" || ty == "bytes" then
    match content with
    | .pstr _ => .ok { type := ty, content := content }
    | .pbytes _ => .ok { type := ty, content := content }
    | _ => .error (.validationError "content: str or bytes expected")
  else .error (.validationError "type")

/-- `LoggedValueContent` (lines 292-302): pydantic record
`{type : StrictStr, content : Any}`. -/
structure LoggedValueContent where
  type : String
  content : PyValue
  deriving DecidableEq

/-- The declared content-type tag set
`["utf-8", "bytes", "float", "bool", "json", "int"]` (line 298). -/
def knownType (ty : String) : Bool :=
  ty == "utf-8" || ty == "bytes" || ty == "float" || ty == "bool"
    || ty == "json" || ty == "int"

/-- Pydantic construction of `LoggedValueContent`: the `type` validator is
`assert v in ["utf-8", "bytes", "float", "bool", "json", "int"]`
(line 298); `content` is `Any` and therefore unvalidated. -/
def LoggedValueContent.construct (ty : String) (content : PyValue) :
    Except PyErr LoggedValueContent :=
  if knownType ty then .ok { type := ty, content := content }
  else .error (.validationError "type")

/-- `convert_ipynb_to_html` of `notebooks_helpers.py` is an out-of-scope
external utility (spec §1); modelled as a fixed pure text transformation
applied to string content (non-string content is passed through; that case
is unreachable because utf-8 decoding yields strings). -/
def convert_ipynb_to_html (s : String) : String :=
  "<html>" ++ s ++ "</html>"

def convert_ipynb_value : PyValue → PyValue
  | .pstr s => .pstr (convert_ipynb_to_html s)
  | v => v

/-- `_decode_data_content_span` (lines 67-78): read the `type`,
`encoding`, `content_encoded` and `name` attributes and decode. -/
def decode_data_content_span (s : SpanRec) :
    Except PyErr (String × String × PyValue) :=
  (attrOf s "type").bind (fun ty =>
    (attrOf s "encoding").bind (fun enc =>
      (attrOf s "content_encoded").bind (fun ce =>
        (attrOf s "name").bind (fun nm =>
          (serializedData_decode ty enc ce).bind (fun content =>
            .ok (nm, ty, content))))))

/-- The status-OK spans with a given name bound strictly under `top`
(the shared shape of `_artefact_iterator_new` and
`_get_logged_named_values_new` iterations). -/
def okSpansNamed (spans : List SpanRec) (top : SpanRec) (nm : String) : List SpanRec :=
  filterByStatus (filterByName (bound_under spans top) nm) "OK"

/-- Body of `_artefact_iterator_new` (lines 262-283): decode every OK
"artefact" span; `notebook.ipynb` artefacts must be utf-8 (`assert`) and
additionally yield an html-converted artefact. -/
def artefactsGo : List SpanRec → Except PyErr (List (String × ArtifactContent))
  | [] => .ok []
  | s :: rest =>
    (decode_data_content_span s).bind (fun d =>
      (ArtifactContent.construct d.2.1 d.2.2).bind (fun ac =>
        if d.1 == "notebook.ipynb" then
          if d.2.1 == "utf-8" then
            (ArtifactContent.construct "utf-8" (convert_ipynb_value d.2.2)).bind
              (fun ach =>
                (artefactsGo rest).bind (fun out =>
                  .ok ((d.1, ac) :: ("notebook.html", ach) :: out)))
          else .error .assertionError
        else
          (artefactsGo rest).bind (fun out => .ok ((d.1, ac) :: out))))

def artefact_iterator_new (spans : List SpanRec) (top : SpanRec) :
    Except PyErr (List (String × ArtifactContent)) :=
  artefactsGo (okSpansNamed spans top "artefact")

/-- The exact-key-set assert of `_get_logged_named_values_new`
(lines 317-322): `attributes.keys() == {"name", "type", "encoding",
"content_encoded"}`. -/
def keysExact (attrs : List (String × String)) : Bool :=
  attrs.all
    (fun p => p.1 == "name" || p.1 == "type" || p.1 == "encoding"
      || p.1 == "content_encoded")
  && ((attrs.lookup "name").isSome && (attrs.lookup "type").isSome
      && (attrs.lookup "encoding").isSome && (attrs.lookup "content_encoded").isSome)

/-- Body of `_get_logged_named_values_new` (lines 305-344): per OK
"named-value" span, assert the attribute key set, fail with the
duplicate-logged-value `ValueError` when the name was already seen, decode
and build a `LoggedValueContent`. -/
def loggedValuesGo (seen : List String) :
    List SpanRec → Except PyErr (List (String × LoggedValueContent))
  | [] => .ok []
  | s :: rest =>
    if keysExact s.attributes then
      (attrOf s "name").bind (fun nm =>
        if seen.contains nm then .error (.duplicateLoggedValue nm)
        else
          (attrOf s "type").bind (fun ty =>
            (attrOf s "encoding").bind (fun enc =>
              (attrOf s "content_encoded").bind (fun ce =>
                (serializedData_decode ty enc ce).bind (fun content =>
                  (LoggedValueContent.construct ty content).bind (fun lvc =>
                    (loggedValuesGo (seen ++ [nm]) rest).bind (fun out =>
                      .ok ((nm, lvc) :: out))))))))
    else .error .assertionError

def get_logged_named_values_new (spans : List SpanRec) (top : SpanRec) :
    Except PyErr (List (String × LoggedValueContent)) :=
  loggedValuesGo [] (okSpansNamed spans top "named-value")

/-- `Timing` (lines 354-384): the two ISO-8601 timestamps.  The derived
duration/epoch accessors are not needed by any claim. -/
structure Timing where
  start_time_iso8601 : String
  end_time_iso8601 : String
  deriving DecidableEq

/-- `TaskRunSummary` (lines 387-443). -/
structure TaskRunSummary where
  span_id : String
  parent_span_id : String
  task_id : String
  exceptions : List String
  attributes : List (String × String)
  timing : Timing
  logged_values : List (String × LoggedValueContent)
  logged_artifacts : List (String × ArtifactContent)
  deriving DecidableEq

/-- `TaskRunSummary.is_success` (lines 421-422): no recorded exceptions. -/
def TaskRunSummary.is_success (t : TaskRunSummary) : Bool :=
  t.exceptions.length == 0

/-- `PipelineSummary` (lines 449-471). -/
structure PipelineSummary where
  span_id : String
  timing : Timing
  attributes : List (String × String)
  task_runs : List TaskRunSummary
  task_dependencies : List (String × String)
  deriving DecidableEq

/-- `PipelineSummary.is_success` (lines 462-464): did all tasks run
successfully? -/
def PipelineSummary.is_success (p : PipelineSummary) : Bool :=
  p.task_runs.all (fun tr => tr.is_success)

/-- Python `value.replace(".py", "")`. -/
def removePy : List Char → List Char
  | '.' :: 'p' :: 'y' :: rest => removePy rest
  | c :: rest => c :: removePy rest
  | [] => []

def lastSlashComponent (cs : List Char) : List Char :=
  (cs.reverse.takeWhile (fun c => !(c == '/'))).reverse

/-- Line 491: `task_attributes["task.notebook"].replace(".py", "").split("/")[-1]`. -/
def task_id_of (v : String) : String :=
  String.mk (lastSlashComponent (removePy v.data))

/-- One step of `_task_run_iterator` (lines 474-505): build the
`TaskRunSummary` of one "execute-task" top span.  Evaluation order follows
the Python keyword arguments: the `task.notebook` lookup (`KeyError`),
then `logged_values` (duplicate check), then `logged_artifacts`, then the
pydantic `span_id` validator (`0x` required). -/
def task_run_one (top_span_id : String) (pipeline_attributes : List (String × String))
    (spans : List SpanRec) (task_top_span : SpanRec) : Except PyErr TaskRunSummary :=
  (lookupE
      (dictMerge pipeline_attributes
        (get_attributes (bound_inclusive spans task_top_span) ["task."]))
      "task.notebook").bind (fun nb =>
    (get_logged_named_values_new spans task_top_span).bind (fun lvs =>
      (artefact_iterator_new spans task_top_span).bind (fun arts =>
        if strStarts task_top_span.span_id "0x" then
          .ok { span_id := task_top_span.span_id,
                parent_span_id := top_span_id,
                task_id := task_id_of nb,
                exceptions := exception_events (bound_inclusive spans task_top_span),
                attributes := dictMerge pipeline_attributes
                  (get_attributes (bound_inclusive spans task_top_span) ["task."]),
                timing := { start_time_iso8601 := task_top_span.start_time,
                            end_time_iso8601 := task_top_span.end_time },
                logged_values := pyDict lvs,
                logged_artifacts := pyDict arts }
        else .error (.validationError "span_id"))))

/-- `_task_run_iterator` (lines 474-505), materialised by
`list(...)` in `parse_spans`. -/
def task_run_list (top_span_id : String) (pipeline_attributes : List (String × String))
    (spans : List SpanRec) : Except PyErr (List TaskRunSummary) :=
  mapE (task_run_one top_span_id pipeline_attributes spans)
    (sort_by_start_time (filterByName spans "execute-task"))

/-- Python `min(generator)` lifted to `Except`: `ValueError` on empty. -/
def minE (l : List String) : Except PyErr String :=
  match pyMin l with
  | some v => .ok v
  | none => .error .emptySequence

/-- Python `max(generator)` lifted to `Except`: `ValueError` on empty. -/
def maxE (l : List String) : Except PyErr String :=
  match pyMax l with
  | some v => .ok v
  | none => .error .emptySequence

/-- Body of `parse_spans` (lines 532-541) once `top_span_id` is fixed:
build the `PipelineSummary`, evaluating the keyword arguments in source
order — dependencies, `Timing` (Python `min`/`max` over all span
timestamps, `ValueError` on an empty span collection), task-run list. -/
def parse_spans_with (top_span_id : String) (spans : List SpanRec) :
    Except PyErr PipelineSummary :=
  (extract_task_dependencies spans).bind (fun deps =>
    (minE (spans.map (fun s => s.start_time))).bind (fun mn =>
      (maxE (spans.map (fun s => s.end_time))).bind (fun mx =>
        (task_run_list top_span_id (get_attributes spans ["pipeline."]) spans).bind
          (fun runs =>
            .ok { span_id := top_span_id,
                  timing := { start_time_iso8601 := mn, end_time_iso8601 := mx },
                  attributes := get_attributes spans ["pipeline."],
                  task_runs := runs,
                  task_dependencies := deps }))))

/-- `parse_spans` (lines 508-541).  The call `uuid.uuid4()` of line 530 —
the only impure expression of the function — is modelled by the explicit
`freshUuid` argument.  The `PipelineSummary(...)` keyword arguments are
evaluated in source order: dependencies, `Timing` (Python `min`/`max` over
all span timestamps, `ValueError` on an empty span collection), then the
task-run list. -/
def parse_spans (freshUuid : String) (spans : List SpanRec) :
    Except PyErr PipelineSummary :=
  match (get_attributes spans ["pipeline."]).lookup "pipeline.pipeline_run_id" with
  | some v =>
    parse_spans_with v spans
  | none =>
    parse_spans_with ("NO-TOP-SPAN--TEMP" ++ freshUuid) spans

/-- Modelled from the spec: the `Try` value-or-error container of
`helpers.py` (spec §3 `Result<V>`): holds exactly one of value / error. -/
structure Try (α : Type) where
  value : Option α
  error : Option String
  deriving DecidableEq

/-- Modelled from the spec: the retry loop of
`retry_wrapper(f_task_remote, max_retries, is_success)` from
`ray_helpers.py`.  Spec §4.2: repeatedly invoke the callable, passing the
zero-based attempt index, until the success predicate holds or
`max_retries` attempts have been made; return the ordered list of all
attempt results. -/
def retryGo {α : Type} (f : Nat → α) (is_success : α → Bool) :
    Nat → Nat → List α
  | _, 0 => []
  | attempt, fuel + 1 =>
    if is_success (f attempt) then [f attempt]
    else f attempt :: retryGo f is_success (attempt + 1) fuel

/-- Modelled from the spec: `retry_wrapper` (attempt counter starts at 0,
budget `max_retries`). -/
def retry_wrapper {α : Type} (f : Nat → α) (max_retries : Nat)
    (is_success : α → Bool) : List α :=
  retryGo f is_success 0 max_retries

/-- Modelled from the spec: `try_f_with_timeout_guard(f, timeout_s,
num_cpus)` from `ray_helpers.py`.  The guarded callable is modelled as
returning its wall-clock duration (abstract `Nat` units) together with its
outcome — a normal value or a raised exception.  Spec §4.2: a callable
finishing before the deadline has its Result returned unchanged (a raised
exception is captured into `Result.error`, never re-raised); when the
deadline elapses first the guard yields
`Result(value=None, error=TimeoutError)`. -/
def try_f_with_timeout_guard {β α : Type} (timeout_s : Nat)
    (f : β → Nat × Except String α) (x : β) : Try α :=
  match f x with
  | (dur, out) =>
    if dur < timeout_s then
      match out with
      | .ok v => { value := some v, error := none }
      | .error e => { value := none, error := some e }
    else
      { value := none,
        error := some "Timeout error: execution did not finish within timeout limit" }

/-- The one-span collection used by the C10 witness. -/
def witnessSpanC10 : SpanRec :=
  { span_id := "0xa", parent_id := none, name := "s", start_time := "t1",
    end_time := "t2", status_code := "OK", attributes := [], events := [] }

/-- The summary produced for `witnessSpanC10` under fresh uuid "u". -/
def witnessSummaryC10 : PipelineSummary :=
  { span_id := "NO-TOP-SPAN--TEMPu",
    timing := { start_time_iso8601 := "t1", end_time_iso8601 := "t2" },
    attributes := [], task_runs := [], task_dependencies := [] }

/-- The names carried by a list of named-value spans (absent names read as
the empty string; for spans passing the key-set assert the name is always
present). -/
def namesOf (l : List SpanRec) : List String :=
  l.map (fun s => (s.attributes.lookup "name").getD "")

/-- Well-formedness of one OK named-value span for every failure mode
other than name duplication: exact key set and a known type tag. -/
def cleanNamedValueSpan (s : SpanRec) : Bool :=
  keysExact s.attributes && knownType ((s.attributes.lookup "type").getD "")

/-- Well-formedness of one OK artefact span: the four content attributes
present, tag utf-8 or bytes, and `notebook.ipynb` artefacts tagged
utf-8. -/
def cleanArtefactSpan (s : SpanRec) : Bool :=
  (s.attributes.lookup "type").isSome && (s.attributes.lookup "encoding").isSome
    && (s.attributes.lookup "content_encoded").isSome
    && (s.attributes.lookup "name").isSome
    && (((s.attributes.lookup "type").getD "") == "utf-8"
        || ((s.attributes.lookup "type").getD "") == "bytes")
    && (!(((s.attributes.lookup "name").getD "") == "notebook.ipynb")
        || ((s.attributes.lookup "type").getD "") == "utf-8")

/-- Well-formedness of one execute-task span for every failure mode other
than name duplication: `task.notebook` attribute available, an `0x` span
id, and clean named-value / artefact spans underneath. -/
def cleanTask (spans : List SpanRec) (pattrs : List (String × String))
    (top : SpanRec) : Bool :=
  ((dictMerge pattrs (get_attributes (bound_inclusive spans top) ["task."])).lookup
      "task.notebook").isSome
    && strStarts top.span_id "0x"
    && (okSpansNamed spans top "named-value").all cleanNamedValueSpan
    && (okSpansNamed spans top "artefact").all cleanArtefactSpan

/-- Well-formedness of a task-dependency span: both endpoint ids present. -/
def depSpanClean (s : SpanRec) : Bool :=
  (s.attributes.lookup "from_task_span_id").isSome
    && (s.attributes.lookup "to_task_span_id").isSome

/-- The execute-task top spans in parse order. -/
def execTasksOf (spans : List SpanRec) : List SpanRec :=
  sort_by_start_time (filterByName spans "execute-task")

/-- C5 witness spans: one execute-task span... -/
def wExecTask : SpanRec :=
  { span_id := "0x1", parent_id := none, name := "execute-task",
    start_time := "t1", end_time := "t4", status_code := "OK",
    attributes := [("task.notebook", "nb.py")], events := [] }

/-- C5 witness spans: first logged value named "x". -/
def wNamedValue1 : SpanRec :=
  { span_id := "0x2", parent_id := some "0x1", name := "named-value",
    start_time := "t2", end_time := "t3", status_code := "OK",
    attributes := [("name", "x"), ("type", "int"), ("encoding", "e"),
      ("content_encoded", "1")], events := [] }

/-- C5 witness spans: second logged value, again named "x". -/
def wNamedValue2 : SpanRec :=
  { span_id := "0x3", parent_id := some "0x1", name := "named-value",
    start_time := "t3", end_time := "t4", status_code := "OK",
    attributes := [("name", "x"), ("type", "int"), ("encoding", "e"),
      ("content_encoded", "2")], events := [] }

/-- C5 witness spans: variant of the second logged value named "y". -/
def wNamedValue2b : SpanRec :=
  { span_id := "0x3", parent_id := some "0x1", name := "named-value",
    start_time := "t3", end_time := "t4", status_code := "OK",
    attributes := [("name", "y"), ("type", "int"), ("encoding", "e"),
      ("content_encoded", "2")], events := [] }

/-- C5 counterexample span: an execute-task span lacking the
`task.notebook` attribute. -/
def wExecTaskNoNb : SpanRec :=
  { span_id := "0x1", parent_id := none, name := "execute-task",
    start_time := "t1", end_time := "t4", status_code := "OK",
    attributes := [], events := [] }

/-! ### Theorems -/

/-- Auxiliary for termination: appending the completed task strictly
shrinks the remaining-task list. -/
theorem contains_append_singleton (l : List Nat) (a t : Nat) :
    (l ++ [a]).contains t = (l.contains t || t == a) := by
  cases h : t == a
  · simp [ne_of_beq_false h]
  · simp [eq_of_beq h]

theorem remainingTasks_append (all_tasks completed : List Nat) (next : Nat) :
    remainingTasks all_tasks (completed ++ [next])
      = (remainingTasks all_tasks completed).filter (fun t => !(t == next)) := by
  unfold remainingTasks
  rw [List.filter_filter]
  apply List.filter_congr
  intro t _
  rw [contains_append_singleton]
  cases h1 : completed.contains t <;> cases h2 : (t == next) <;> simp [h1, h2]

theorem remaining_shrinks (all_tasks completed : List Nat) (next : Nat)
    (h : next ∈ remainingTasks all_tasks completed) :
    (remainingTasks all_tasks (completed ++ [next])).length
      < (remainingTasks all_tasks completed).length := by
  rw [remainingTasks_append]
  exact List.length_filter_lt_length_iff_exists.mpr ⟨next, h, by simp⟩

theorem chooseFrom_mem (l : List Nat) (k : Nat) (h : l ≠ []) : chooseFrom l k ∈ l := by
  match l with
  | [] => exact absurd rfl h
  | x :: xs => exact List.get_mem _ _ _

theorem runnable_sublist (deps : List (Nat × Nat)) (all_tasks completed : List Nat) :
    (runnableTasks deps all_tasks completed).Sublist (remainingTasks all_tasks completed) :=
  List.filter_sublist _

theorem contains_eq_decide_mem (l : List Nat) (a : Nat) :
    l.contains a = decide (a ∈ l) := by simp

theorem mem_remainingTasks (all_tasks completed : List Nat) (t : Nat) :
    t ∈ remainingTasks all_tasks completed ↔ (t ∈ all_tasks ∧ t ∉ completed) := by
  unfold remainingTasks
  rw [List.mem_filter]
  simp

/-- In an acyclic dependency list, every nonempty finite set of tasks
contains a task with no dependency edge arriving from inside the set. -/
theorem exists_source_finset (deps : List (Nat × Nat))
    (hacyc : ∀ t, ¬ Relation.TransGen (fun a b => (a, b) ∈ deps) t t) :
    ∀ (n : Nat) (S : Finset Nat), S.card ≤ n → S.Nonempty →
      ∃ t ∈ S, ∀ a ∈ S, (a, t) ∉ deps := by
  intro n
  induction n with
  | zero =>
    intro S hcard hne
    exact absurd (Finset.card_pos.mpr hne) (by omega)
  | succ n ih =>
    intro S hcard hne
    classical
    obtain ⟨t0, ht0⟩ := hne
    by_cases hmin : ∀ a ∈ S, (a, t0) ∉ deps
    · exact ⟨t0, ht0, hmin⟩
    · push_neg at hmin
      obtain ⟨a, ha, hedge⟩ := hmin
      have hancne :
          (S.filter (fun x => Relation.TransGen (fun a b => (a, b) ∈ deps) x t0)).Nonempty :=
        ⟨a, Finset.mem_filter.mpr ⟨ha, Relation.TransGen.single hedge⟩⟩
      have ht0anc :
          t0 ∉ S.filter (fun x => Relation.TransGen (fun a b => (a, b) ∈ deps) x t0) :=
        fun hmem => hacyc t0 ((Finset.mem_filter.mp hmem).2)
      have hsub :
          S.filter (fun x => Relation.TransGen (fun a b => (a, b) ∈ deps) x t0) ⊆ S :=
        Finset.filter_subset _ _
      have hlt :
          (S.filter (fun x => Relation.TransGen (fun a b => (a, b) ∈ deps) x t0)).card
            < S.card := by
        apply Finset.card_lt_card
        rw [Finset.ssubset_iff_subset_ne]
        exact ⟨hsub, fun he => ht0anc (by rw [he]; exact ht0)⟩
      obtain ⟨m, hmanc, hmmin⟩ :=
        ih (S.filter (fun x => Relation.TransGen (fun a b => (a, b) ∈ deps) x t0))
          (by omega) hancne
      refine ⟨m, hsub hmanc, ?_⟩
      intro x hx hxm
      have hmt0 := (Finset.mem_filter.mp hmanc).2
      have hxt0 := Relation.TransGen.head hxm hmt0
      exact hmmin x (Finset.mem_filter.mpr ⟨hx, hxt0⟩) hxm

theorem exists_source (deps : List (Nat × Nat))
    (hacyc : ∀ t, ¬ Relation.TransGen (fun a b => (a, b) ∈ deps) t t)
    (S : List Nat) (hS : S ≠ []) :
    ∃ t ∈ S, ∀ a ∈ S, (a, t) ∉ deps := by
  have hne : S.toFinset.Nonempty := by
    match S, hS with
    | x :: xs, _ => exact ⟨x, by simp⟩
  obtain ⟨t, htmem, htmin⟩ :=
    exists_source_finset deps hacyc S.toFinset.card S.toFinset le_rfl hne
  exact ⟨t, List.mem_toFinset.mp htmem,
    fun a ha => htmin a (List.mem_toFinset.mpr ha)⟩

/-- With an acyclic dependency list referencing only known tasks, a
nonempty remaining-task list always yields a nonempty runnable list. -/
theorem runnable_ne_nil (deps : List (Nat × Nat)) (all_tasks completed : List Nat)
    (hrefs : ∀ e ∈ deps, e.1 ∈ all_tasks)
    (hacyc : ∀ t, ¬ Relation.TransGen (fun a b => (a, b) ∈ deps) t t)
    (hne : remainingTasks all_tasks completed ≠ []) :
    runnableTasks deps all_tasks completed ≠ [] := by
  obtain ⟨t, htmem, htmin⟩ := exists_source deps hacyc _ hne
  have hcan : task_can_run deps completed t = true := by
    unfold task_can_run
    rw [List.all_eq_true]
    intro d hd
    rw [List.mem_map] at hd
    obtain ⟨e, hef, he1⟩ := hd
    rw [List.mem_filter] at hef
    obtain ⟨hedep, he2⟩ := hef
    have he2' : e.2 = t := eq_of_beq he2
    rw [contains_eq_decide_mem]
    by_contra hdc
    have hdnotin : d ∉ completed := by
      intro hin
      rw [decide_eq_true hin] at hdc
      exact hdc rfl
    have hdall : d ∈ all_tasks := by
      have := hrefs e hedep
      rw [he1] at this
      exact this
    have hdrem : d ∈ remainingTasks all_tasks completed :=
      (mem_remainingTasks all_tasks completed d).mpr ⟨hdall, hdnotin⟩
    apply htmin d hdrem
    have : (e.1, e.2) ∈ deps := by
      cases e
      exact hedep
    rw [he1, he2'] at this
    exact this
  have htr : t ∈ runnableTasks deps all_tasks completed := by
    unfold runnableTasks
    rw [List.mem_filter]
    exact ⟨htmem, hcan⟩
  intro hnil
  rw [hnil] at htr
  cases htr

theorem nodup_append_singleton {γ : Type} (l : List γ) (a : γ) (hl : l.Nodup) (ha : a ∉ l) :
    (l ++ [a]).Nodup := by
  rw [List.nodup_append]
  refine ⟨hl, List.nodup_singleton a, ?_⟩
  intro x hx hxa
  rw [List.mem_singleton] at hxa
  exact ha (hxa ▸ hx)

theorem length_remaining_after (all_tasks completed : List Nat) (next : Nat)
    (hnodupAll : all_tasks.Nodup) (hmem : next ∈ remainingTasks all_tasks completed) :
    (remainingTasks all_tasks (completed ++ [next])).length + 1
      = (remainingTasks all_tasks completed).length := by
  rw [remainingTasks_append]
  have hnd : (remainingTasks all_tasks completed).Nodup := hnodupAll.filter _
  have herase :
      (remainingTasks all_tasks completed).filter (fun t => !(t == next))
        = (remainingTasks all_tasks completed).erase next :=
    (List.Nodup.erase_eq_filter hnd next).symm
  rw [herase, List.length_erase_of_mem hmem]
  have := List.length_pos_of_mem hmem
  omega

/-- Totality of the scheduler loop: with an acyclic dependency list over
distinct known tasks, the loop returns normally, its final completed list
is a duplicate-free enumeration of all tasks, and it performs exactly one
iteration per remaining task. -/
theorem run_tasks_loop_ok (deps : List (Nat × Nat)) (all_tasks : List Nat)
    (pick : Nat → Nat)
    (hrefs : ∀ e ∈ deps, e.1 ∈ all_tasks)
    (hacyc : ∀ t, ¬ Relation.TransGen (fun a b => (a, b) ∈ deps) t t)
    (hnodupAll : all_tasks.Nodup) :
    ∀ (n : Nat) (st : RunState),
      (remainingTasks all_tasks st.completed).length = n →
      st.completed.Nodup →
      (∀ t ∈ st.completed, t ∈ all_tasks) →
      ∃ stf : RunState,
        run_tasks_loop deps all_tasks pick st = .ok stf ∧
        stf.completed.Nodup ∧
        (∀ t, t ∈ stf.completed ↔ t ∈ all_tasks) ∧
        stf.iterationNr = st.iterationNr + n := by
  intro n
  induction n with
  | zero =>
    intro st hlen hnd hsub
    have hempty : remainingTasks all_tasks st.completed = [] :=
      List.length_eq_zero.mp hlen
    have hemp : (remainingTasks all_tasks st.completed).isEmpty = true :=
      List.isEmpty_iff.mpr hempty
    refine ⟨st, ?_, hnd, ?_, by omega⟩
    · rw [run_tasks_loop]
      simp [hemp]
    · intro t
      constructor
      · exact hsub t
      · intro htall
        by_contra htc
        have hmem : t ∈ remainingTasks all_tasks st.completed :=
          (mem_remainingTasks _ _ _).mpr ⟨htall, htc⟩
        rw [hempty] at hmem
        cases hmem
  | succ n ih =>
    intro st hlen hnd hsub
    have hne : remainingTasks all_tasks st.completed ≠ [] := by
      intro h
      rw [h] at hlen
      cases hlen
    have hrun : runnableTasks deps all_tasks st.completed ≠ [] :=
      runnable_ne_nil deps all_tasks st.completed hrefs hacyc hne
    have hnextrun :
        chooseFrom (runnableTasks deps all_tasks st.completed) (pick (st.iterationNr + 1))
          ∈ runnableTasks deps all_tasks st.completed :=
      chooseFrom_mem _ _ hrun
    have hnextrem :
        chooseFrom (runnableTasks deps all_tasks st.completed) (pick (st.iterationNr + 1))
          ∈ remainingTasks all_tasks st.completed :=
      List.Sublist.mem hnextrun (runnable_sublist deps all_tasks st.completed)
    obtain ⟨hnall, hnnotc⟩ := (mem_remainingTasks all_tasks st.completed _).mp hnextrem
    have hempf : (remainingTasks all_tasks st.completed).isEmpty = false := by
      cases hi : (remainingTasks all_tasks st.completed).isEmpty
      · rfl
      · exact absurd (List.isEmpty_iff.mp hi) hne
    have hrunf : (runnableTasks deps all_tasks st.completed).isEmpty = false := by
      cases hi : (runnableTasks deps all_tasks st.completed).isEmpty
      · rfl
      · exact absurd (List.isEmpty_iff.mp hi) hrun
    have hstep :
        run_tasks_loop deps all_tasks pick st
          = run_tasks_loop deps all_tasks pick
              { futures :=
                  (startRunnable { st with iterationNr := st.iterationNr + 1 }
                    (runnableTasks deps all_tasks st.completed)).futures,
                nextHandle :=
                  (startRunnable { st with iterationNr := st.iterationNr + 1 }
                    (runnableTasks deps all_tasks st.completed)).nextHandle,
                completed := st.completed
                  ++ [chooseFrom (runnableTasks deps all_tasks st.completed)
                        (pick (st.iterationNr + 1))],
                iterationNr := st.iterationNr + 1 } := by
      rw [run_tasks_loop]
      simp [hempf, hrunf]
    rw [hstep]
    have hlen2 :
        (remainingTasks all_tasks
          (st.completed
            ++ [chooseFrom (runnableTasks deps all_tasks st.completed)
                  (pick (st.iterationNr + 1))])).length = n := by
      have := length_remaining_after all_tasks st.completed _ hnodupAll hnextrem
      omega
    have hnd2 := nodup_append_singleton _ _ hnd hnnotc
    have hsub2 :
        ∀ t ∈ st.completed
              ++ [chooseFrom (runnableTasks deps all_tasks st.completed)
                    (pick (st.iterationNr + 1))],
          t ∈ all_tasks := by
      intro t ht
      rw [List.mem_append] at ht
      cases ht with
      | inl h => exact hsub t h
      | inr h =>
        rw [List.mem_singleton] at h
        exact h ▸ hnall
    obtain ⟨stf, heq, hfnd, hfmem, hfit⟩ :=
      ih { futures :=
              (startRunnable { st with iterationNr := st.iterationNr + 1 }
                (runnableTasks deps all_tasks st.completed)).futures,
           nextHandle :=
              (startRunnable { st with iterationNr := st.iterationNr + 1 }
                (runnableTasks deps all_tasks st.completed)).nextHandle,
           completed := st.completed
              ++ [chooseFrom (runnableTasks deps all_tasks st.completed)
                    (pick (st.iterationNr + 1))],
           iterationNr := st.iterationNr + 1 }
        hlen2 hnd2 hsub2
    refine ⟨stf, heq, hfnd, hfmem, ?_⟩
    have hfit2 : stf.iterationNr = (st.iterationNr + 1) + n := hfit
    omega

theorem lookup_append_some (l : List (Nat × Nat)) (e : Nat × Nat) (t h : Nat)
    (hb : l.lookup t = some h) : (l ++ [e]).lookup t = some h := by
  induction l with
  | nil => cases hb
  | cons p ps ih =>
    obtain ⟨k, v⟩ := p
    rw [List.lookup_cons] at hb
    rw [List.cons_append, List.lookup_cons]
    cases hc : (t == k)
    · simp only [hc] at hb ⊢
      exact ih hb
    · simp only [hc] at hb ⊢
      exact hb

/-- `startRunnable` never rebinds an existing Future handle: a task id
already mapped to a handle keeps exactly that handle. -/
theorem startRunnable_stable (l : List Nat) :
    ∀ (st : RunState) (t h : Nat), st.futures.lookup t = some h →
      (startRunnable st l).futures.lookup t = some h := by
  induction l with
  | nil =>
    intro st t h hb
    exact hb
  | cons x rest ih =>
    intro st t h hb
    rw [startRunnable]
    cases hx : (st.futures.lookup x).isSome
    · simp only [hx, Bool.false_eq_true, if_false]
      exact ih _ t h (lookup_append_some _ _ _ _ hb)
    · simp only [hx, if_true]
      exact ih _ t h hb

/-- Future handles bound before (or during) the scheduler loop are stable:
if the loop returns normally, every handle binding present in the entry
state is unchanged in the final state. -/
theorem run_tasks_loop_futures_stable (deps : List (Nat × Nat)) (all_tasks : List Nat)
    (pick : Nat → Nat) :
    ∀ (n : Nat) (st stf : RunState),
      (remainingTasks all_tasks st.completed).length ≤ n →
      run_tasks_loop deps all_tasks pick st = .ok stf →
      ∀ t h, st.futures.lookup t = some h → stf.futures.lookup t = some h := by
  intro n
  induction n with
  | zero =>
    intro st stf hlen heq t h hb
    have hempty : remainingTasks all_tasks st.completed = [] :=
      List.length_eq_zero.mp (Nat.le_zero.mp hlen)
    have hemp : (remainingTasks all_tasks st.completed).isEmpty = true :=
      List.isEmpty_iff.mpr hempty
    rw [run_tasks_loop] at heq
    simp [hemp] at heq
    rw [← heq]
    exact hb
  | succ n ih =>
    intro st stf hlen heq t h hb
    by_cases hemp : (remainingTasks all_tasks st.completed).isEmpty = true
    · rw [run_tasks_loop] at heq
      simp [hemp] at heq
      rw [← heq]
      exact hb
    · have hempf : (remainingTasks all_tasks st.completed).isEmpty = false := by
        cases hbb : (remainingTasks all_tasks st.completed).isEmpty
        · rfl
        · exact absurd hbb hemp
      have hrem_ne : remainingTasks all_tasks st.completed ≠ [] := by
        intro hh
        rw [List.isEmpty_iff.mpr hh] at hempf
        cases hempf
      by_cases hrun : (runnableTasks deps all_tasks st.completed).isEmpty = true
      · rw [run_tasks_loop] at heq
        simp [hempf, hrun] at heq
      · have hrunf : (runnableTasks deps all_tasks st.completed).isEmpty = false := by
          cases hbb : (runnableTasks deps all_tasks st.completed).isEmpty
          · rfl
          · exact absurd hbb hrun
        have hrun_ne : runnableTasks deps all_tasks st.completed ≠ [] := by
          intro hh
          rw [List.isEmpty_iff.mpr hh] at hrunf
          cases hrunf
        rw [run_tasks_loop] at heq
        simp only [hempf, Bool.false_eq_true, ↓reduceDIte, hrunf] at heq
        have hnextmem :
            chooseFrom (runnableTasks deps all_tasks st.completed) (pick (st.iterationNr + 1))
              ∈ remainingTasks all_tasks st.completed :=
          List.Sublist.mem (chooseFrom_mem _ _ hrun_ne)
            (runnable_sublist deps all_tasks st.completed)
        have hdec := remaining_shrinks all_tasks st.completed _ hnextmem
        have hlen2 :
            (remainingTasks all_tasks
              (st.completed
                ++ [chooseFrom (runnableTasks deps all_tasks st.completed)
                      (pick (st.iterationNr + 1))])).length ≤ n := by
          omega
        exact ih
          { futures :=
              (startRunnable { st with iterationNr := st.iterationNr + 1 }
                (runnableTasks deps all_tasks st.completed)).futures,
            nextHandle :=
              (startRunnable { st with iterationNr := st.iterationNr + 1 }
                (runnableTasks deps all_tasks st.completed)).nextHandle,
            completed := st.completed
              ++ [chooseFrom (runnableTasks deps all_tasks st.completed)
                    (pick (st.iterationNr + 1))],
            iterationNr := st.iterationNr + 1 } stf hlen2 heq t h
          (startRunnable_stable _ _ t h hb)

/-- The scheduler loop either returns normally or fails with the
`AssertionError` of `_get_next_completed_task`; in particular the
"unable to start any task" branch (guarded by the dead test
`iteration_nr == 0`, checked after `iteration_nr` was incremented)
is unreachable. -/
theorem run_tasks_loop_error_classification (deps : List (Nat × Nat))
    (all_tasks : List Nat) (pick : Nat → Nat) :
    ∀ (n : Nat) (st : RunState),
      (remainingTasks all_tasks st.completed).length ≤ n →
      (∃ stf, run_tasks_loop deps all_tasks pick st = .ok stf)
        ∨ run_tasks_loop deps all_tasks pick st = .error .assertionError := by
  intro n
  induction n with
  | zero =>
    intro st hlen
    have hemp : (remainingTasks all_tasks st.completed).isEmpty = true :=
      List.isEmpty_iff.mpr (List.length_eq_zero.mp (Nat.le_zero.mp hlen))
    left
    refine ⟨st, ?_⟩
    rw [run_tasks_loop]
    simp [hemp]
  | succ n ih =>
    intro st hlen
    by_cases hemp : (remainingTasks all_tasks st.completed).isEmpty = true
    · left
      refine ⟨st, ?_⟩
      rw [run_tasks_loop]
      simp [hemp]
    · have hempf : (remainingTasks all_tasks st.completed).isEmpty = false := by
        cases hbb : (remainingTasks all_tasks st.completed).isEmpty
        · rfl
        · exact absurd hbb hemp
      by_cases hrun : (runnableTasks deps all_tasks st.completed).isEmpty = true
      · right
        rw [run_tasks_loop]
        simp [hempf, hrun]
      · have hrunf : (runnableTasks deps all_tasks st.completed).isEmpty = false := by
          cases hbb : (runnableTasks deps all_tasks st.completed).isEmpty
          · rfl
          · exact absurd hbb hrun
        have hrun_ne : runnableTasks deps all_tasks st.completed ≠ [] := by
          intro hh
          rw [List.isEmpty_iff.mpr hh] at hrunf
          cases hrunf
        have hnextmem :
            chooseFrom (runnableTasks deps all_tasks st.completed) (pick (st.iterationNr + 1))
              ∈ remainingTasks all_tasks st.completed :=
          List.Sublist.mem (chooseFrom_mem _ _ hrun_ne)
            (runnable_sublist deps all_tasks st.completed)
        have hdec := remaining_shrinks all_tasks st.completed _ hnextmem
        have hlen2 :
            (remainingTasks all_tasks
              (st.completed
                ++ [chooseFrom (runnableTasks deps all_tasks st.completed)
                      (pick (st.iterationNr + 1))])).length ≤ n := by
          omega
        have hrec := ih
          { futures :=
              (startRunnable { st with iterationNr := st.iterationNr + 1 }
                (runnableTasks deps all_tasks st.completed)).futures,
            nextHandle :=
              (startRunnable { st with iterationNr := st.iterationNr + 1 }
                (runnableTasks deps all_tasks st.completed)).nextHandle,
            completed := st.completed
              ++ [chooseFrom (runnableTasks deps all_tasks st.completed)
                    (pick (st.iterationNr + 1))],
            iterationNr := st.iterationNr + 1 }
          hlen2
        rw [run_tasks_loop]
        simp only [hempf, Bool.false_eq_true, ↓reduceDIte, hrunf]
        simpa using hrec

theorem remainingTasks_nil (all_tasks : List Nat) :
    remainingTasks all_tasks [] = all_tasks := by
  unfold remainingTasks
  rw [List.filter_eq_self]
  intro a _
  rfl

/-- Acyclicity of the one-edge dependency list `[(0, 1)]`. -/
theorem transGen_edge01_irrefl :
    ∀ t : Nat, ¬ Relation.TransGen
      (fun a b => (a, b) ∈ ([((0 : Nat), (1 : Nat))] : List (Nat × Nat))) t t := by
  intro t h
  have key : ∀ x y : Nat,
      Relation.TransGen
        (fun a b => (a, b) ∈ ([((0 : Nat), (1 : Nat))] : List (Nat × Nat))) x y →
      x = 0 ∧ y = 1 := by
    intro x y hxy
    induction hxy with
    | single hs =>
      simpa using hs
    | tail hprev hs ih =>
      obtain ⟨hx0, hb1⟩ := ih
      obtain ⟨hb0, hy1⟩ : _ ∧ _ := by simpa using hs
      exact ⟨hx0, hy1⟩
  obtain ⟨h0, h1⟩ := key t t h
  omega

/-- C4: for every task set `T` (distinct, unstarted tasks) and dependency
set `D` referencing only tasks of `T`, with `D` acyclic and at least one
initially runnable task, `run_tasks` terminates after exactly `|T|` loop
iterations, every task ends up completed exactly once, and the returned
list holds one `result()` value per task of `T`. -/
theorem claim_C4_run_tasks_one_result_per_task {α : Type} (resultOf : Nat → α)
    (deps : List (Nat × Nat)) (all_tasks : List Nat) (pick : Nat → Nat)
    (initFutures : List (Nat × Nat))
    (hnodup : all_tasks.Nodup)
    (hrefs : ∀ e ∈ deps, e.1 ∈ all_tasks ∧ e.2 ∈ all_tasks)
    (hacyc : ∀ t, ¬ Relation.TransGen (fun a b => (a, b) ∈ deps) t t)
    (hinitrun : ∃ t ∈ all_tasks, task_can_run deps [] t = true)
    (hnostart : ∀ t ∈ all_tasks, initFutures.lookup t = none) :
    ∃ stf : RunState,
      run_tasks_loop deps all_tasks pick
        { futures := initFutures, nextHandle := 0, completed := [], iterationNr := 0 }
        = .ok stf ∧
      stf.completed.Perm all_tasks ∧
      stf.iterationNr = all_tasks.length ∧
      run_tasks resultOf deps all_tasks pick initFutures
        = .ok (stf.completed.map resultOf) := by
  have hlen0 :
      (remainingTasks all_tasks
        (RunState.completed
          { futures := initFutures, nextHandle := 0, completed := [], iterationNr := 0 })).length
        = all_tasks.length := by
    show (remainingTasks all_tasks []).length = all_tasks.length
    rw [remainingTasks_nil]
  obtain ⟨stf, heq, hnd, hmem, hiter⟩ :=
    run_tasks_loop_ok deps all_tasks pick (fun e he => (hrefs e he).1) hacyc hnodup
      all_tasks.length
      { futures := initFutures, nextHandle := 0, completed := [], iterationNr := 0 }
      hlen0 List.nodup_nil (fun t ht => absurd ht (List.not_mem_nil t))
  have hguard : all_tasks.all (fun t => !(initFutures.lookup t).isSome) = true := by
    rw [List.all_eq_true]
    intro t ht
    rw [hnostart t ht]
    rfl
  have hcont : all_tasks.all (fun t => stf.completed.contains t) = true := by
    rw [List.all_eq_true]
    intro t ht
    rw [contains_eq_decide_mem]
    exact decide_eq_true ((hmem t).mpr ht)
  have hperm : stf.completed.Perm all_tasks :=
    (List.perm_ext_iff_of_nodup hnd hnodup).mpr hmem
  refine ⟨stf, heq, hperm, ?_, ?_⟩
  · have hiter2 : stf.iterationNr = 0 + all_tasks.length := hiter
    omega
  · unfold run_tasks
    simp only [hguard, if_true, heq, hcont]

/-- C4 witness: two tasks `0, 1` with the single dependency `(0, 1)`. -/
theorem claim_C4_witness :
    [((0 : Nat), (1 : Nat))].Nodup ∧
    (∃ stf : RunState,
      run_tasks_loop [(0, 1)] [0, 1] (fun _ => 0)
        { futures := [], nextHandle := 0, completed := [], iterationNr := 0 }
        = .ok stf ∧
      stf.completed.Perm [0, 1] ∧
      stf.iterationNr = [0, 1].length ∧
      run_tasks (fun t => t + 100) [(0, 1)] [0, 1] (fun _ => 0) []
        = .ok (stf.completed.map (fun t => t + 100))) :=
  ⟨by decide,
   claim_C4_run_tasks_one_result_per_task (fun t => t + 100) [(0, 1)] [0, 1]
     (fun _ => 0) [] (by decide) (by decide) transGen_edge01_irrefl
     (by decide) (by decide)⟩

/-- C1 (code bug): the designated "unable to start any task" error is
unreachable — `iteration_nr` is incremented before the `iteration_nr == 0`
test, so the guard is dead code — and on a fully blocked dependency graph
(two tasks waiting on each other) `run_tasks` instead fails with the
`AssertionError` of `_get_next_completed_task`. -/
theorem claim_C1_no_runnable_task_error_unreachable :
    (∀ (α : Type) (resultOf : Nat → α) (deps : List (Nat × Nat)) (all_tasks : List Nat)
        (pick : Nat → Nat) (initFutures : List (Nat × Nat)),
        run_tasks resultOf deps all_tasks pick initFutures
          ≠ .error (.exceptionMsg "Check run dependencies, unable to start any task!"))
    ∧ run_tasks (fun t => t) [(0, 1), (1, 0)] [0, 1] (fun _ => 0) []
        = .error .assertionError := by
  constructor
  · intro α resultOf deps all_tasks pick initFutures
    unfold run_tasks
    by_cases hg : all_tasks.all (fun t => !(initFutures.lookup t).isSome) = true
    · simp only [hg, if_true]
      rcases run_tasks_loop_error_classification deps all_tasks pick
          (remainingTasks all_tasks ([] : List Nat)).length
          { futures := initFutures, nextHandle := 0, completed := [], iterationNr := 0 }
          (le_refl _) with ⟨stf, hok⟩ | herr
      · rw [hok]
        split
        · simp_all
        · split <;> simp
      · rw [herr]
        simp
    · rw [if_neg hg]
      simp
  · unfold run_tasks
    rw [run_tasks_loop]
    rfl

/-- C8: a bound Future handle is never rebound.  `Task.start` on a started
task raises `Exception("Task has already started")`; the scheduler's start
step (`startRunnable`, which models lines 136-139 where `start` is guarded
by `has_started`) keeps every existing binding unchanged; and across a
whole scheduler-loop run every handle bound on entry is still bound, to the
same value, in the final state. -/
theorem claim_C8_future_handle_never_rebound :
    (∀ (h0 handle : Nat),
      Task.start { futureOrNone := some h0 } handle
        = .error (.exceptionMsg "Task has already started"))
    ∧ (∀ (st : RunState) (l : List Nat) (t h : Nat),
        st.futures.lookup t = some h →
        (startRunnable st l).futures.lookup t = some h)
    ∧ (∀ (deps : List (Nat × Nat)) (all_tasks : List Nat) (pick : Nat → Nat)
        (st stf : RunState) (t h : Nat),
        run_tasks_loop deps all_tasks pick st = .ok stf →
        st.futures.lookup t = some h →
        stf.futures.lookup t = some h) := by
  refine ⟨fun h0 handle => rfl, fun st l t h hb => startRunnable_stable l st t h hb, ?_⟩
  intro deps all_tasks pick st stf t h heq hb
  exact run_tasks_loop_futures_stable deps all_tasks pick
    (remainingTasks all_tasks st.completed).length st stf (le_refl _) heq t h hb

/-- C8 witness: a pre-bound handle `(5 ↦ 7)` survives `Task.start`
misuse, a `startRunnable` pass, and a full scheduler-loop run. -/
theorem claim_C8_witness :
    Task.start { futureOrNone := some 7 } 9
        = .error (.exceptionMsg "Task has already started")
    ∧ (startRunnable
          { futures := [(5, 7)], nextHandle := 8, completed := [], iterationNr := 0 }
          [5, 6]).futures.lookup 5 = some 7
    ∧ (run_tasks_loop [] [0] (fun _ => 0)
          { futures := [(5, 7)], nextHandle := 8, completed := [], iterationNr := 0 }
        = .ok
          { futures := [(5, 7), (0, 8)], nextHandle := 9, completed := [0], iterationNr := 1 }
      ∧ List.lookup 5 [(5, 7), (0, 8)] = some 7) := by
  have h1 : run_tasks_loop [] [0] (fun _ => 0)
      { futures := [(5, 7)], nextHandle := 8, completed := [], iterationNr := 0 }
      = run_tasks_loop [] [0] (fun _ => 0)
        { futures := [(5, 7), (0, 8)], nextHandle := 9, completed := [0], iterationNr := 1 } := by
    rw [run_tasks_loop]
    rfl
  have h2 : run_tasks_loop [] [0] (fun _ => 0)
      { futures := [(5, 7), (0, 8)], nextHandle := 9, completed := [0], iterationNr := 1 }
      = .ok { futures := [(5, 7), (0, 8)], nextHandle := 9, completed := [0], iterationNr := 1 } := by
    rw [run_tasks_loop]
    rfl
  refine ⟨claim_C8_future_handle_never_rebound.1 7 9,
    claim_C8_future_handle_never_rebound.2.1 _ [5, 6] 5 7 (by decide),
    h1.trans h2, ?_⟩
  exact claim_C8_future_handle_never_rebound.2.2 [] [0] (fun _ => 0)
    { futures := [(5, 7)], nextHandle := 8, completed := [], iterationNr := 0 }
    { futures := [(5, 7), (0, 8)], nextHandle := 9, completed := [0], iterationNr := 1 }
    5 7 (h1.trans h2) (by decide)

/-- C9: `PipelineSummary.is_success` holds exactly when every contained
`TaskRunSummary` is successful, and `TaskRunSummary.is_success` holds
exactly when its list of exceptions is empty. -/
theorem claim_C9_is_success_characterisation :
    (∀ p : PipelineSummary,
      (p.is_success = true ↔ ∀ tr ∈ p.task_runs, tr.is_success = true))
    ∧ (∀ tr : TaskRunSummary, (tr.is_success = true ↔ tr.exceptions = [])) := by
  constructor
  · intro p
    unfold PipelineSummary.is_success
    exact List.all_eq_true
  · intro tr
    unfold TaskRunSummary.is_success
    constructor
    · intro h
      exact List.length_eq_zero.mp (eq_of_beq h)
    · intro h
      rw [h]
      rfl

/-- C9 witness: a pipeline of one exception-free run is successful. -/
theorem claim_C9_witness :
    PipelineSummary.is_success
      { span_id := "0xroot",
        timing := { start_time_iso8601 := "a", end_time_iso8601 := "b" },
        attributes := [],
        task_runs := [
          { span_id := "0x1", parent_span_id := "0xroot", task_id := "t",
            exceptions := [], attributes := [],
            timing := { start_time_iso8601 := "a", end_time_iso8601 := "b" },
            logged_values := [], logged_artifacts := [] }],
        task_dependencies := [] } = true :=
  (claim_C9_is_success_characterisation.1 _).mpr (by decide)

/-- C3 counterexample: `ArtifactContent` rejects the declared tag "float"
(its validator accepts only utf-8 and bytes), and `LoggedValueContent`
accepts content whose runtime shape does not match its tag (an int tagged
utf-8) — contrary to the claim on both counts. -/
theorem claim_C3_counterexample :
    ArtifactContent.construct "float" (.pfloat "1.5")
        = .error (.validationError "type")
    ∧ LoggedValueContent.construct "utf-8" (.pint "7")
        = .ok { type := "utf-8", content := .pint "7" } :=
  ⟨rfl, rfl⟩

/-- C3 (amended): `LoggedValueContent` accepts exactly the six declared
tags and leaves the content unvalidated, while `ArtifactContent` accepts
exactly the tags utf-8 and bytes and requires str-or-bytes content,
without matching the content shape against the tag. -/
theorem claim_C3_construction_validation :
    (∀ (ty : String) (content : PyValue),
      (∃ l, LoggedValueContent.construct ty content = .ok l)
        ↔ ty ∈ (["utf-8", "bytes", "float", "bool", "json", "int"] : List String))
    ∧ (∀ (ty : String) (content : PyValue),
      (∃ a, ArtifactContent.construct ty content = .ok a)
        ↔ (ty ∈ (["utf-8", "bytes"] : List String)
            ∧ ((∃ s, content = .pstr s) ∨ (∃ s, content = .pbytes s)))) := by
  constructor
  · intro ty content
    unfold LoggedValueContent.construct
    by_cases h : knownType ty = true
    · rw [if_pos h]
      unfold knownType at h
      simp only [Bool.or_eq_true, beq_iff_eq] at h
      constructor
      · intro _
        simp only [List.mem_cons, List.mem_singleton, List.not_mem_nil, or_false]
        tauto
      · intro _
        exact ⟨_, rfl⟩
    · rw [if_neg h]
      unfold knownType at h
      simp only [Bool.or_eq_true, beq_iff_eq] at h
      constructor
      · rintro ⟨l, hl⟩
        exact Except.noConfusion hl
      · intro hmem
        exfalso
        apply h
        simp only [List.mem_cons, List.mem_singleton, List.not_mem_nil, or_false] at hmem
        tauto
  · intro ty content
    unfold ArtifactContent.construct
    by_cases h : (ty == "utf-8" || ty == "bytes") = true
    · rw [if_pos h]
      simp only [Bool.or_eq_true, beq_iff_eq] at h
      cases content with
      | pstr s =>
        constructor
        · intro _
          refine ⟨by simp only [List.mem_cons, List.mem_singleton]; tauto, ?_⟩
          exact Or.inl ⟨s, rfl⟩
        · intro _
          exact ⟨_, rfl⟩
      | pbytes s =>
        constructor
        · intro _
          refine ⟨by simp only [List.mem_cons, List.mem_singleton]; tauto, ?_⟩
          exact Or.inr ⟨s, rfl⟩
        · intro _
          exact ⟨_, rfl⟩
      | pfloat s =>
        constructor
        · rintro ⟨a, ha⟩
          exact Except.noConfusion ha
        · rintro ⟨-, (⟨s2, hs⟩ | ⟨s2, hs⟩)⟩ <;> exact PyValue.noConfusion hs
      | pbool s =>
        constructor
        · rintro ⟨a, ha⟩
          exact Except.noConfusion ha
        · rintro ⟨-, (⟨s2, hs⟩ | ⟨s2, hs⟩)⟩ <;> exact PyValue.noConfusion hs
      | pint s =>
        constructor
        · rintro ⟨a, ha⟩
          exact Except.noConfusion ha
        · rintro ⟨-, (⟨s2, hs⟩ | ⟨s2, hs⟩)⟩ <;> exact PyValue.noConfusion hs
      | pjson s =>
        constructor
        · rintro ⟨a, ha⟩
          exact Except.noConfusion ha
        · rintro ⟨-, (⟨s2, hs⟩ | ⟨s2, hs⟩)⟩ <;> exact PyValue.noConfusion hs
    · rw [if_neg h]
      simp only [Bool.or_eq_true, beq_iff_eq] at h
      constructor
      · rintro ⟨a, ha⟩
        exact Except.noConfusion ha
      · rintro ⟨hmem, -⟩
        exfalso
        apply h
        simp only [List.mem_cons, List.mem_singleton, List.not_mem_nil, or_false] at hmem
        tauto

/-- C3 witness: the amended characterisation evaluated at the tag "json". -/
theorem claim_C3_witness :
    ∃ l, LoggedValueContent.construct "json" (.pjson "[1]") = .ok l :=
  (claim_C3_construction_validation.1 "json" (.pjson "[1]")).mpr (by decide)

theorem except_bind_ok {α β : Type} (a : α) (f : α → Except PyErr β) :
    (Except.ok a : Except PyErr α).bind f = f a := rfl

theorem except_bind_error {α β : Type} (e : PyErr) (f : α → Except PyErr β) :
    (Except.error e : Except PyErr α).bind f = .error e := rfl

theorem minE_ok (l : List String) (v : String) (h : minE l = .ok v) :
    pyMin l = some v := by
  unfold minE at h
  cases hp : pyMin l with
  | none =>
    rw [hp] at h
    exact Except.noConfusion h
  | some w =>
    rw [hp] at h
    exact congrArg some (Except.ok.inj h)

theorem maxE_ok (l : List String) (v : String) (h : maxE l = .ok v) :
    pyMax l = some v := by
  unfold maxE at h
  cases hp : pyMax l with
  | none =>
    rw [hp] at h
    exact Except.noConfusion h
  | some w =>
    rw [hp] at h
    exact congrArg some (Except.ok.inj h)

theorem parse_spans_with_timing (top : String) (spans : List SpanRec)
    (ps : PipelineSummary) (h : parse_spans_with top spans = .ok ps) :
    ∃ mn mx, pyMin (spans.map (fun s => s.start_time)) = some mn
      ∧ pyMax (spans.map (fun s => s.end_time)) = some mx
      ∧ ps.timing = { start_time_iso8601 := mn, end_time_iso8601 := mx } := by
  unfold parse_spans_with at h
  cases hd : extract_task_dependencies spans with
  | error e =>
    simp only [hd, except_bind_error] at h
    exact Except.noConfusion h
  | ok deps =>
    simp only [hd, except_bind_ok] at h
    cases hmn : minE (spans.map (fun s => s.start_time)) with
    | error e =>
      simp only [hmn, except_bind_error] at h
      exact Except.noConfusion h
    | ok mn =>
      simp only [hmn, except_bind_ok] at h
      cases hmx : maxE (spans.map (fun s => s.end_time)) with
      | error e =>
        simp only [hmx, except_bind_error] at h
        exact Except.noConfusion h
      | ok mx =>
        simp only [hmx, except_bind_ok] at h
        cases hr : task_run_list top (get_attributes spans ["pipeline."]) spans with
        | error e =>
          simp only [hr, except_bind_error] at h
          exact Except.noConfusion h
        | ok runs =>
          simp only [hr, except_bind_ok] at h
          injection h with h2
          refine ⟨mn, mx, minE_ok _ _ hmn, maxE_ok _ _ hmx, ?_⟩
          rw [← h2]

/-- C10: `parse_spans` on the empty span collection fails (Python `min()`
over an empty sequence raises `ValueError`), and whenever it returns a
summary the summary's `Timing` is exactly the minimum start time and the
maximum end time over all input spans. -/
theorem claim_C10_parse_spans_empty_and_timing :
    (∀ u : String, parse_spans u [] = .error .emptySequence)
    ∧ (∀ (u : String) (spans : List SpanRec) (ps : PipelineSummary),
        parse_spans u spans = .ok ps →
        ∃ mn mx, pyMin (spans.map (fun s => s.start_time)) = some mn
          ∧ pyMax (spans.map (fun s => s.end_time)) = some mx
          ∧ ps.timing = { start_time_iso8601 := mn, end_time_iso8601 := mx }) := by
  constructor
  · intro u
    rfl
  · intro u spans ps h
    unfold parse_spans at h
    cases hl : (get_attributes spans ["pipeline."]).lookup "pipeline.pipeline_run_id" with
    | none =>
      rw [hl] at h
      exact parse_spans_with_timing _ spans ps h
    | some v =>
      rw [hl] at h
      exact parse_spans_with_timing _ spans ps h

/-- C10 witness: a single-span collection parses and its timing is the
span's own interval. -/
theorem claim_C10_witness :
    parse_spans "u" [witnessSpanC10] = .ok witnessSummaryC10
    ∧ ∃ mn mx,
        pyMin (([witnessSpanC10] : List SpanRec).map (fun s => s.start_time)) = some mn
        ∧ pyMax (([witnessSpanC10] : List SpanRec).map (fun s => s.end_time)) = some mx
        ∧ witnessSummaryC10.timing
            = { start_time_iso8601 := mn, end_time_iso8601 := mx } :=
  ⟨rfl, claim_C10_parse_spans_empty_and_timing.2 "u" _ _ rfl⟩

/-- C2 counterexample: on a span collection without a
`pipeline.pipeline_run_id` attribute, the summary's `span_id` embeds the
fresh `uuid4()` value of that invocation, so two invocations on the same
spans yield different `PipelineSummary` objects. -/
theorem claim_C2_counterexample :
    parse_spans "uuid-a"
        [{ span_id := "0xa", parent_id := none, name := "s",
           start_time := "t1", end_time := "t2", status_code := "OK",
           attributes := [], events := [] }]
      ≠ parse_spans "uuid-b"
        [{ span_id := "0xa", parent_id := none, name := "s",
           start_time := "t1", end_time := "t2", status_code := "OK",
           attributes := [], events := [] }] := by
  intro h
  have hA : parse_spans "uuid-a"
      [{ span_id := "0xa", parent_id := none, name := "s",
         start_time := "t1", end_time := "t2", status_code := "OK",
         attributes := [], events := [] }]
      = .ok { span_id := "NO-TOP-SPAN--TEMPuuid-a",
              timing := { start_time_iso8601 := "t1", end_time_iso8601 := "t2" },
              attributes := [], task_runs := [], task_dependencies := [] } := rfl
  have hB : parse_spans "uuid-b"
      [{ span_id := "0xa", parent_id := none, name := "s",
         start_time := "t1", end_time := "t2", status_code := "OK",
         attributes := [], events := [] }]
      = .ok { span_id := "NO-TOP-SPAN--TEMPuuid-b",
              timing := { start_time_iso8601 := "t1", end_time_iso8601 := "t2" },
              attributes := [], task_runs := [], task_dependencies := [] } := rfl
  rw [hA, hB] at h
  injection h with h2
  have h3 : ("NO-TOP-SPAN--TEMPuuid-a" : String) = "NO-TOP-SPAN--TEMPuuid-b" := by
    rw [show ("NO-TOP-SPAN--TEMPuuid-a" : String)
        = (PipelineSummary.span_id
            { span_id := "NO-TOP-SPAN--TEMPuuid-a",
              timing := { start_time_iso8601 := "t1", end_time_iso8601 := "t2" },
              attributes := [], task_runs := [], task_dependencies := [] }) from rfl, h2]
  exact absurd h3 (by decide)

/-- C2 (amended): `parse_spans` is deterministic — independent of the
fresh uuid, hence identical across invocations — whenever the span
collection carries a `pipeline.pipeline_run_id` pipeline attribute. -/
theorem claim_C2_parse_spans_deterministic (u1 u2 : String) (spans : List SpanRec)
    (v : String)
    (hv : (get_attributes spans ["pipeline."]).lookup "pipeline.pipeline_run_id"
      = some v) :
    parse_spans u1 spans = parse_spans u2 spans := by
  unfold parse_spans
  rw [hv]

/-- C2 witness: a span carrying `pipeline.pipeline_run_id` parses
identically under two different fresh uuids. -/
theorem claim_C2_witness :
    parse_spans "uuid-a"
        [{ span_id := "0xa", parent_id := none, name := "s",
           start_time := "t1", end_time := "t2", status_code := "OK",
           attributes := [("pipeline.pipeline_run_id", "0xroot")], events := [] }]
      = parse_spans "uuid-b"
        [{ span_id := "0xa", parent_id := none, name := "s",
           start_time := "t1", end_time := "t2", status_code := "OK",
           attributes := [("pipeline.pipeline_run_id", "0xroot")], events := [] }] :=
  claim_C2_parse_spans_deterministic "uuid-a" "uuid-b" _ "0xroot" rfl

/-- C7: the timeout guard returns the callable's Result unchanged when it
finishes before the deadline (a raised exception is captured into the
error slot, not re-raised), yields `Result(value=None, error=Timeout...)`
when the deadline elapses first, and in every case the caller receives a
well-formed Result holding exactly one of value / error. -/
theorem claim_C7_timeout_guard (β α : Type) (timeout_s : Nat)
    (f : β → Nat × Except String α) (x : β) :
    ((f x).1 < timeout_s →
      try_f_with_timeout_guard timeout_s f x
        = (match (f x).2 with
           | .ok v => { value := some v, error := none }
           | .error e => { value := none, error := some e }))
    ∧ (timeout_s ≤ (f x).1 →
      try_f_with_timeout_guard timeout_s f x
        = { value := none,
            error := some "Timeout error: execution did not finish within timeout limit" })
    ∧ (((try_f_with_timeout_guard timeout_s f x).value.isSome = true
          ∧ (try_f_with_timeout_guard timeout_s f x).error = none)
        ∨ ((try_f_with_timeout_guard timeout_s f x).value = none
          ∧ (try_f_with_timeout_guard timeout_s f x).error.isSome = true)) := by
  rcases hfx : f x with ⟨dur, out⟩
  simp only [try_f_with_timeout_guard, hfx]
  by_cases hd : dur < timeout_s
  · rw [if_pos hd]
    cases out with
    | ok v => exact ⟨fun _ => rfl, fun hle => absurd hd (by omega), Or.inl ⟨rfl, rfl⟩⟩
    | error e => exact ⟨fun _ => rfl, fun hle => absurd hd (by omega), Or.inr ⟨rfl, rfl⟩⟩
  · rw [if_neg hd]
    exact ⟨fun hlt => absurd hlt hd, fun _ => rfl, Or.inr ⟨rfl, rfl⟩⟩

/-- C7 witness: a callable of duration 2 under deadlines 5 and 1. -/
theorem claim_C7_witness :
    try_f_with_timeout_guard 5 (fun n : Nat => (n, Except.ok (n + 1))) 2
        = { value := some 3, error := none }
    ∧ try_f_with_timeout_guard 1 (fun n : Nat => (n, Except.ok (n + 1))) 2
        = { value := none,
            error := some "Timeout error: execution did not finish within timeout limit" } :=
  ⟨((claim_C7_timeout_guard Nat Nat 5 (fun n => (n, Except.ok (n + 1))) 2).1
      (by decide)).trans rfl,
   (claim_C7_timeout_guard Nat Nat 1 (fun n => (n, Except.ok (n + 1))) 2).2.1
      (by decide)⟩

theorem retryGo_spec {α : Type} (f : Nat → α) (is_success : α → Bool) :
    ∀ (fuel a : Nat), ∃ k, k ≤ fuel ∧ (1 ≤ fuel → 1 ≤ k)
      ∧ retryGo f is_success a fuel = (List.range' a k).map f
      ∧ (∀ j, j + 1 < k → is_success (f (a + j)) = false)
      ∧ (k < fuel → is_success (f (a + k - 1)) = true) := by
  intro fuel
  induction fuel with
  | zero =>
    intro a
    exact ⟨0, Nat.le_refl 0, by omega, rfl, by omega, by omega⟩
  | succ fuel ih =>
    intro a
    cases hs : is_success (f a)
    · obtain ⟨k, hle, hpos, hEq, hFail, hLast⟩ := ih (a + 1)
      refine ⟨k + 1, by omega, by omega, ?_, ?_, ?_⟩
      · rw [retryGo]
        rw [if_neg (by rw [hs]; exact Bool.false_ne_true), hEq]
        rfl
      · intro j hj
        cases j with
        | zero => exact hs
        | succ j2 =>
          rw [show a + (j2 + 1) = a + 1 + j2 by omega]
          exact hFail j2 (by omega)
      · intro hk
        rw [show a + (k + 1) - 1 = a + 1 + k - 1 by omega]
        exact hLast (by omega)
    · refine ⟨1, by omega, fun _ => Nat.le_refl 1, ?_, by omega, fun _ => ?_⟩
      · rw [retryGo, if_pos hs]
        rfl
      · rw [show a + 1 - 1 = a + 0 by omega]
        rw [Nat.add_zero]
        exact hs

/-- C6: the retry wrapper calls the callable with the zero-based attempt
indices 0, 1, 2, … in order, stops at the first success or after
`max_retries` attempts, and returns the ordered list of all attempt
results: between 1 and `max_retries` long, every element before the last
fails the predicate, and when the wrapper stopped early the last element
satisfies it. -/
theorem claim_C6_retry_wrapper (α : Type) (f : Nat → α) (max_retries : Nat)
    (is_success : α → Bool) (hmax : 1 ≤ max_retries) :
    ∃ k, retry_wrapper f max_retries is_success = (List.range k).map f
      ∧ 1 ≤ k ∧ k ≤ max_retries
      ∧ (∀ j, j + 1 < k → is_success (f j) = false)
      ∧ (k < max_retries → is_success (f (k - 1)) = true) := by
  obtain ⟨k, hle, hpos, hEq, hFail, hLast⟩ := retryGo_spec f is_success max_retries 0
  refine ⟨k, ?_, hpos hmax, hle, ?_, ?_⟩
  · unfold retry_wrapper
    rw [hEq, List.range_eq_range']
  · intro j hj
    have := hFail j hj
    rw [Nat.zero_add] at this
    exact this
  · intro hk
    have := hLast hk
    rw [Nat.zero_add] at this
    exact this

/-- C6 witness: the deterministic-success retry scenario of the tests —
attempt index is returned, success at value ≥ 4 stops after 5 attempts. -/
theorem claim_C6_witness :
    retry_wrapper (fun n => n) 10 (fun n => decide (4 ≤ n)) = [0, 1, 2, 3, 4]
    ∧ ∃ k, retry_wrapper (fun n => n) 10 (fun n => decide (4 ≤ n))
          = (List.range k).map (fun n => n)
        ∧ 1 ≤ k ∧ k ≤ 10
        ∧ (∀ j, j + 1 < k → decide (4 ≤ j) = false)
        ∧ (k < 10 → decide (4 ≤ k - 1) = true) :=
  ⟨by decide,
   claim_C6_retry_wrapper Nat (fun n => n) 10 (fun n => decide (4 ≤ n)) (by decide)⟩

theorem contains_eq_decide_mem_str (l : List String) (a : String) :
    l.contains a = decide (a ∈ l) := by simp

theorem decode_not_dup (ty enc ce : String) (nm : String) :
    serializedData_decode ty enc ce ≠ .error (.duplicateLoggedValue nm) := by
  unfold serializedData_decode
  split <;> simp

theorem decode_known (ty enc ce : String) (h : knownType ty = true) :
    ∃ v, serializedData_decode ty enc ce = .ok v := by
  unfold knownType at h
  simp only [Bool.or_eq_true, beq_iff_eq] at h
  rcases h with ((((h | h) | h) | h) | h) | h <;> subst h <;> exact ⟨_, rfl⟩

theorem construct_lv_not_dup (ty : String) (c : PyValue) (nm : String) :
    LoggedValueContent.construct ty c ≠ .error (.duplicateLoggedValue nm) := by
  unfold LoggedValueContent.construct
  split <;> simp

theorem construct_lv_known (ty : String) (c : PyValue) (h : knownType ty = true) :
    ∃ l, LoggedValueContent.construct ty c = .ok l := by
  unfold LoggedValueContent.construct
  rw [if_pos h]
  exact ⟨_, rfl⟩

theorem construct_ac_not_dup (ty : String) (c : PyValue) (nm : String) :
    ArtifactContent.construct ty c ≠ .error (.duplicateLoggedValue nm) := by
  unfold ArtifactContent.construct
  split
  · split <;> simp
  · simp

theorem keysExact_name (a : List (String × String)) (h : keysExact a = true) :
    (a.lookup "name").isSome = true := by
  unfold keysExact at h
  simp only [Bool.and_eq_true] at h
  tauto

theorem keysExact_type (a : List (String × String)) (h : keysExact a = true) :
    (a.lookup "type").isSome = true := by
  unfold keysExact at h
  simp only [Bool.and_eq_true] at h
  tauto

theorem keysExact_encoding (a : List (String × String)) (h : keysExact a = true) :
    (a.lookup "encoding").isSome = true := by
  unfold keysExact at h
  simp only [Bool.and_eq_true] at h
  tauto

theorem keysExact_content (a : List (String × String)) (h : keysExact a = true) :
    (a.lookup "content_encoded").isSome = true := by
  unfold keysExact at h
  simp only [Bool.and_eq_true] at h
  tauto

theorem lookupE_of_isSome (m : List (String × String)) (k : String)
    (h : (m.lookup k).isSome = true) :
    lookupE m k = .ok ((m.lookup k).getD "") := by
  unfold lookupE
  cases hl : m.lookup k with
  | none =>
    rw [hl] at h
    exact Bool.noConfusion h
  | some v => rfl

theorem lookupE_error (m : List (String × String)) (k : String) (e : PyErr)
    (h : lookupE m k = .error e) : e = .keyError k := by
  unfold lookupE at h
  cases hl : m.lookup k with
  | none =>
    rw [hl] at h
    exact (Except.error.inj h).symm
  | some v =>
    rw [hl] at h
    exact Except.noConfusion h

theorem attrOf_of_isSome (s : SpanRec) (k : String)
    (h : (s.attributes.lookup k).isSome = true) :
    attrOf s k = .ok ((s.attributes.lookup k).getD "") :=
  lookupE_of_isSome s.attributes k h

theorem attrOf_error (s : SpanRec) (k : String) (e : PyErr)
    (h : attrOf s k = .error e) : e = .keyError k :=
  lookupE_error s.attributes k e h

theorem not_nodup_append_cons {γ : Type} (l1 l2 : List γ) (a : γ) (ha : a ∈ l1) :
    ¬ (l1 ++ a :: l2).Nodup := by
  intro h
  rw [List.nodup_append] at h
  exact h.2.2 ha (List.mem_cons_self a l2)

/-- Distinct names: the named-value fold never raises the
duplicate-logged-value error. -/
theorem loggedValuesGo_not_dup (ls : List SpanRec) :
    ∀ seen : List String, (seen ++ namesOf ls).Nodup →
      ∀ nm, loggedValuesGo seen ls ≠ .error (.duplicateLoggedValue nm) := by
  induction ls with
  | nil =>
    intro seen hnd nm
    simp [loggedValuesGo]
  | cons s rest ih =>
    intro seen hnd nm heq
    have hname : namesOf (s :: rest)
        = ((s.attributes.lookup "name").getD "") :: namesOf rest := rfl
    rw [hname] at hnd
    rw [loggedValuesGo] at heq
    by_cases hk : keysExact s.attributes = true
    · rw [if_pos hk] at heq
      cases hn : attrOf s "name" with
      | error e =>
        simp only [hn, except_bind_error] at heq
        injection heq with h2
        rw [attrOf_error s "name" e hn] at h2
        exact PyErr.noConfusion h2
      | ok nm0 =>
        simp only [hn, except_bind_ok] at heq
        have hnm0 : nm0 = (s.attributes.lookup "name").getD "" := by
          have h2 := attrOf_of_isSome s "name" (keysExact_name _ hk)
          rw [hn] at h2
          exact Except.ok.inj h2
        by_cases hcont : seen.contains nm0 = true
        · have hmem : nm0 ∈ seen := by
            rw [contains_eq_decide_mem_str] at hcont
            exact of_decide_eq_true hcont
          rw [hnm0] at hmem
          exact not_nodup_append_cons seen (namesOf rest) _ hmem hnd
        · rw [if_neg hcont] at heq
          cases ht : attrOf s "type" with
          | error e =>
            simp only [ht, except_bind_error] at heq
            injection heq with h2
            rw [attrOf_error s "type" e ht] at h2
            exact PyErr.noConfusion h2
          | ok ty =>
            simp only [ht, except_bind_ok] at heq
            cases he : attrOf s "encoding" with
            | error e =>
              simp only [he, except_bind_error] at heq
              injection heq with h2
              rw [attrOf_error s "encoding" e he] at h2
              exact PyErr.noConfusion h2
            | ok enc =>
              simp only [he, except_bind_ok] at heq
              cases hc : attrOf s "content_encoded" with
              | error e =>
                simp only [hc, except_bind_error] at heq
                injection heq with h2
                rw [attrOf_error s "content_encoded" e hc] at h2
                exact PyErr.noConfusion h2
              | ok ce =>
                simp only [hc, except_bind_ok] at heq
                cases hd : serializedData_decode ty enc ce with
                | error e =>
                  simp only [hd, except_bind_error] at heq
                  injection heq with h2
                  exact decode_not_dup ty enc ce nm (by rw [hd, h2])
                | ok content =>
                  simp only [hd, except_bind_ok] at heq
                  cases hl : LoggedValueContent.construct ty content with
                  | error e =>
                    simp only [hl, except_bind_error] at heq
                    injection heq with h2
                    exact construct_lv_not_dup ty content nm (by rw [hl, h2])
                  | ok lvc =>
                    simp only [hl, except_bind_ok] at heq
                    cases hrec : loggedValuesGo (seen ++ [nm0]) rest with
                    | error e =>
                      simp only [hrec, except_bind_error] at heq
                      injection heq with h2
                      exact ih (seen ++ [nm0])
                        (by rw [hnm0, List.append_assoc]; exact hnd) nm
                        (by rw [hrec, h2])
                    | ok out =>
                      simp only [hrec, except_bind_ok] at heq
                      exact Except.noConfusion heq
    · rw [if_neg hk] at heq
      exact PyErr.noConfusion (Except.error.inj heq)

/-- Clean spans with distinct names: the named-value fold succeeds. -/
theorem loggedValuesGo_clean_ok (ls : List SpanRec) :
    ∀ seen : List String, ls.all cleanNamedValueSpan = true →
      (seen ++ namesOf ls).Nodup →
      ∃ out, loggedValuesGo seen ls = .ok out := by
  induction ls with
  | nil =>
    intro seen _ _
    exact ⟨[], rfl⟩
  | cons s rest ih =>
    intro seen hclean hnd
    rw [List.all_cons, Bool.and_eq_true] at hclean
    obtain ⟨hcs, hcr⟩ := hclean
    unfold cleanNamedValueSpan at hcs
    rw [Bool.and_eq_true] at hcs
    obtain ⟨hk, hknown⟩ := hcs
    have hname : namesOf (s :: rest)
        = ((s.attributes.lookup "name").getD "") :: namesOf rest := rfl
    rw [hname] at hnd
    have hncont :
        ¬ (seen.contains ((s.attributes.lookup "name").getD "") = true) := by
      rw [contains_eq_decide_mem_str]
      simp only [decide_eq_true_eq]
      intro hin
      exact not_nodup_append_cons seen (namesOf rest) _ hin hnd
    obtain ⟨v, hv⟩ := decode_known ((s.attributes.lookup "type").getD "")
      ((s.attributes.lookup "encoding").getD "")
      ((s.attributes.lookup "content_encoded").getD "") hknown
    obtain ⟨lvc, hlv⟩ :=
      construct_lv_known ((s.attributes.lookup "type").getD "") v hknown
    obtain ⟨out, hout⟩ := ih (seen ++ [(s.attributes.lookup "name").getD ""]) hcr
      (by rw [List.append_assoc]; exact hnd)
    refine ⟨((s.attributes.lookup "name").getD "", lvc) :: out, ?_⟩
    rw [loggedValuesGo, if_pos hk]
    simp only [attrOf_of_isSome s "name" (keysExact_name _ hk), except_bind_ok]
    rw [if_neg hncont]
    simp only [attrOf_of_isSome s "type" (keysExact_type _ hk), except_bind_ok,
      attrOf_of_isSome s "encoding" (keysExact_encoding _ hk),
      attrOf_of_isSome s "content_encoded" (keysExact_content _ hk),
      hv, hlv, hout]

/-- Clean spans with a duplicated name: the named-value fold fails with
the duplicate-logged-value error. -/
theorem loggedValuesGo_dup_error (ls : List SpanRec) :
    ∀ seen : List String, ls.all cleanNamedValueSpan = true → seen.Nodup →
      ¬ (seen ++ namesOf ls).Nodup →
      ∃ nm, loggedValuesGo seen ls = .error (.duplicateLoggedValue nm) := by
  induction ls with
  | nil =>
    intro seen _ hsd hnd
    exfalso
    apply hnd
    rw [show namesOf [] = [] from rfl, List.append_nil]
    exact hsd
  | cons s rest ih =>
    intro seen hclean hsd hnd
    rw [List.all_cons, Bool.and_eq_true] at hclean
    obtain ⟨hcs, hcr⟩ := hclean
    unfold cleanNamedValueSpan at hcs
    rw [Bool.and_eq_true] at hcs
    obtain ⟨hk, hknown⟩ := hcs
    have hname : namesOf (s :: rest)
        = ((s.attributes.lookup "name").getD "") :: namesOf rest := rfl
    rw [hname] at hnd
    by_cases hin : ((s.attributes.lookup "name").getD "") ∈ seen
    · refine ⟨(s.attributes.lookup "name").getD "", ?_⟩
      rw [loggedValuesGo, if_pos hk]
      simp only [attrOf_of_isSome s "name" (keysExact_name _ hk), except_bind_ok]
      rw [if_pos (by rw [contains_eq_decide_mem_str]; exact decide_eq_true hin)]
    · have hncont :
          ¬ (seen.contains ((s.attributes.lookup "name").getD "") = true) := by
        rw [contains_eq_decide_mem_str]
        simpa using hin
      obtain ⟨v, hv⟩ := decode_known ((s.attributes.lookup "type").getD "")
        ((s.attributes.lookup "encoding").getD "")
        ((s.attributes.lookup "content_encoded").getD "") hknown
      obtain ⟨lvc, hlv⟩ :=
        construct_lv_known ((s.attributes.lookup "type").getD "") v hknown
      obtain ⟨nm, hrec⟩ := ih (seen ++ [(s.attributes.lookup "name").getD ""]) hcr
        (nodup_append_singleton seen _ hsd hin)
        (by rw [List.append_assoc]; exact hnd)
      refine ⟨nm, ?_⟩
      rw [loggedValuesGo, if_pos hk]
      simp only [attrOf_of_isSome s "name" (keysExact_name _ hk), except_bind_ok]
      rw [if_neg hncont]
      simp only [attrOf_of_isSome s "type" (keysExact_type _ hk), except_bind_ok,
        attrOf_of_isSome s "encoding" (keysExact_encoding _ hk),
        attrOf_of_isSome s "content_encoded" (keysExact_content _ hk),
        hv, hlv, hrec, except_bind_error]

theorem decode_data_not_dup (s : SpanRec) (nm : String) :
    decode_data_content_span s ≠ .error (.duplicateLoggedValue nm) := by
  intro heq
  unfold decode_data_content_span at heq
  cases ht : attrOf s "type" with
  | error e =>
    simp only [ht, except_bind_error] at heq
    injection heq with h2
    rw [attrOf_error s "type" e ht] at h2
    exact PyErr.noConfusion h2
  | ok ty =>
    simp only [ht, except_bind_ok] at heq
    cases he : attrOf s "encoding" with
    | error e =>
      simp only [he, except_bind_error] at heq
      injection heq with h2
      rw [attrOf_error s "encoding" e he] at h2
      exact PyErr.noConfusion h2
    | ok enc =>
      simp only [he, except_bind_ok] at heq
      cases hc : attrOf s "content_encoded" with
      | error e =>
        simp only [hc, except_bind_error] at heq
        injection heq with h2
        rw [attrOf_error s "content_encoded" e hc] at h2
        exact PyErr.noConfusion h2
      | ok ce =>
        simp only [hc, except_bind_ok] at heq
        cases hn : attrOf s "name" with
        | error e =>
          simp only [hn, except_bind_error] at heq
          injection heq with h2
          rw [attrOf_error s "name" e hn] at h2
          exact PyErr.noConfusion h2
        | ok nm0 =>
          simp only [hn, except_bind_ok] at heq
          cases hd : serializedData_decode ty enc ce with
          | error e =>
            simp only [hd, except_bind_error] at heq
            injection heq with h2
            exact decode_not_dup ty enc ce nm (by rw [hd, h2])
          | ok content =>
            simp only [hd, except_bind_ok] at heq
            exact Except.noConfusion heq

/-- The artefact fold never raises the duplicate-logged-value error. -/
theorem artefactsGo_not_dup (ls : List SpanRec) :
    ∀ nm, artefactsGo ls ≠ .error (.duplicateLoggedValue nm) := by
  induction ls with
  | nil =>
    intro nm
    simp [artefactsGo]
  | cons s rest ih =>
    intro nm heq
    rw [artefactsGo] at heq
    cases hd : decode_data_content_span s with
    | error e =>
      simp only [hd, except_bind_error] at heq
      injection heq with h2
      exact decode_data_not_dup s nm (by rw [hd, h2])
    | ok d =>
      simp only [hd, except_bind_ok] at heq
      cases hac : ArtifactContent.construct d.2.1 d.2.2 with
      | error e =>
        simp only [hac, except_bind_error] at heq
        injection heq with h2
        exact construct_ac_not_dup d.2.1 d.2.2 nm (by rw [hac, h2])
      | ok ac =>
        simp only [hac, except_bind_ok] at heq
        by_cases h1 : (d.1 == "notebook.ipynb") = true
        · rw [if_pos h1] at heq
          by_cases h2 : (d.2.1 == "utf-8") = true
          · rw [if_pos h2] at heq
            cases hach : ArtifactContent.construct "utf-8" (convert_ipynb_value d.2.2) with
            | error e =>
              simp only [hach, except_bind_error] at heq
              injection heq with h3
              exact construct_ac_not_dup "utf-8" (convert_ipynb_value d.2.2) nm
                (by rw [hach, h3])
            | ok ach =>
              simp only [hach, except_bind_ok] at heq
              cases hrec : artefactsGo rest with
              | error e =>
                simp only [hrec, except_bind_error] at heq
                injection heq with h3
                exact ih nm (by rw [hrec, h3])
              | ok out =>
                simp only [hrec, except_bind_ok] at heq
                exact Except.noConfusion heq
          · rw [if_neg h2] at heq
            injection heq with h3
            exact PyErr.noConfusion h3
        · rw [if_neg h1] at heq
          cases hrec : artefactsGo rest with
          | error e =>
            simp only [hrec, except_bind_error] at heq
            injection heq with h3
            exact ih nm (by rw [hrec, h3])
          | ok out =>
            simp only [hrec, except_bind_ok] at heq
            exact Except.noConfusion heq

/-- Clean artefact spans: the artefact fold succeeds. -/
theorem artefactsGo_clean_ok (ls : List SpanRec) :
    ls.all cleanArtefactSpan = true → ∃ out, artefactsGo ls = .ok out := by
  induction ls with
  | nil =>
    intro _
    exact ⟨[], rfl⟩
  | cons s rest ih =>
    intro hclean
    rw [List.all_cons, Bool.and_eq_true] at hclean
    obtain ⟨hcs, hcr⟩ := hclean
    unfold cleanArtefactSpan at hcs
    simp only [Bool.and_eq_true] at hcs
    obtain ⟨⟨⟨⟨⟨hty, henc⟩, hce⟩, hnm⟩, htag1⟩, hnb⟩ := hcs
    obtain ⟨out, hout⟩ := ih hcr
    have hdecTy := attrOf_of_isSome s "type" hty
    have hdecEnc := attrOf_of_isSome s "encoding" henc
    have hdecCe := attrOf_of_isSome s "content_encoded" hce
    have hdecNm := attrOf_of_isSome s "name" hnm
    rw [Bool.or_eq_true] at htag1
    rcases htag1 with hu | hb
    · have hu2 : (s.attributes.lookup "type").getD "" = "utf-8" := eq_of_beq hu
      have hdec : decode_data_content_span s
          = .ok ((s.attributes.lookup "name").getD "",
              (s.attributes.lookup "type").getD "",
              .pstr ((s.attributes.lookup "content_encoded").getD "")) := by
        unfold decode_data_content_span
        simp only [hdecTy, except_bind_ok, hdecEnc, hdecCe, hdecNm, hu2]
        rfl
      by_cases hnbk : (((s.attributes.lookup "name").getD "") == "notebook.ipynb") = true
      · refine ⟨((s.attributes.lookup "name").getD "",
            { type := (s.attributes.lookup "type").getD "",
              content := .pstr ((s.attributes.lookup "content_encoded").getD "") })
            :: ("notebook.html",
              { type := "utf-8",
                content := .pstr (convert_ipynb_to_html
                  ((s.attributes.lookup "content_encoded").getD "")) }) :: out, ?_⟩
        rw [artefactsGo]
        simp only [hdec, except_bind_ok]
        rw [show ArtifactContent.construct ((s.attributes.lookup "type").getD "")
            (.pstr ((s.attributes.lookup "content_encoded").getD ""))
            = .ok { type := (s.attributes.lookup "type").getD "",
                    content := .pstr ((s.attributes.lookup "content_encoded").getD "") } by
          unfold ArtifactContent.construct
          rw [if_pos (by rw [hu2]; exact rfl)]]
        simp only [except_bind_ok]
        rw [if_pos hnbk, if_pos (by rw [hu2]; exact rfl)]
        simp only [show ArtifactContent.construct "utf-8"
            (convert_ipynb_value (.pstr ((s.attributes.lookup "content_encoded").getD "")))
            = .ok { type := "utf-8",
                    content := .pstr (convert_ipynb_to_html
                      ((s.attributes.lookup "content_encoded").getD "")) } from rfl,
          except_bind_ok, hout]
      · refine ⟨((s.attributes.lookup "name").getD "",
            { type := (s.attributes.lookup "type").getD "",
              content := .pstr ((s.attributes.lookup "content_encoded").getD "") })
            :: out, ?_⟩
        rw [artefactsGo]
        simp only [hdec, except_bind_ok]
        rw [show ArtifactContent.construct ((s.attributes.lookup "type").getD "")
            (.pstr ((s.attributes.lookup "content_encoded").getD ""))
            = .ok { type := (s.attributes.lookup "type").getD "",
                    content := .pstr ((s.attributes.lookup "content_encoded").getD "") } by
          unfold ArtifactContent.construct
          rw [if_pos (by rw [hu2]; exact rfl)]]
        simp only [except_bind_ok]
        rw [if_neg hnbk]
        simp only [hout, except_bind_ok]
    · have hb2 : (s.attributes.lookup "type").getD "" = "bytes" := eq_of_beq hb
      have hdec : decode_data_content_span s
          = .ok ((s.attributes.lookup "name").getD "",
              (s.attributes.lookup "type").getD "",
              .pbytes ((s.attributes.lookup "content_encoded").getD "")) := by
        unfold decode_data_content_span
        simp only [hdecTy, except_bind_ok, hdecEnc, hdecCe, hdecNm, hb2]
        rfl
      by_cases hnbk : (((s.attributes.lookup "name").getD "") == "notebook.ipynb") = true
      · exfalso
        rw [Bool.or_eq_true] at hnb
        rcases hnb with hx | hx
        · rw [hnbk] at hx
          exact Bool.noConfusion hx
        · rw [hb2] at hx
          exact absurd hx (by decide)
      · refine ⟨((s.attributes.lookup "name").getD "",
            { type := (s.attributes.lookup "type").getD "",
              content := .pbytes ((s.attributes.lookup "content_encoded").getD "") })
            :: out, ?_⟩
        rw [artefactsGo]
        simp only [hdec, except_bind_ok]
        rw [show ArtifactContent.construct ((s.attributes.lookup "type").getD "")
            (.pbytes ((s.attributes.lookup "content_encoded").getD ""))
            = .ok { type := (s.attributes.lookup "type").getD "",
                    content := .pbytes ((s.attributes.lookup "content_encoded").getD "") } by
          unfold ArtifactContent.construct
          rw [if_pos (by rw [hb2]; exact rfl)]
          ]
        simp only [except_bind_ok]
        rw [if_neg hnbk]
        simp only [hout, except_bind_ok]

/-- Clean execute-task span with distinct logged-value names: the
task-run summary is produced. -/
theorem task_run_one_clean_ok (tid : String) (pattrs : List (String × String))
    (spans : List SpanRec) (top : SpanRec)
    (hc : cleanTask spans pattrs top = true)
    (hnd : (namesOf (okSpansNamed spans top "named-value")).Nodup) :
    ∃ s, task_run_one tid pattrs spans top = .ok s := by
  unfold cleanTask at hc
  simp only [Bool.and_eq_true] at hc
  obtain ⟨⟨⟨hnb, h0x⟩, hnv⟩, har⟩ := hc
  obtain ⟨lvs, hlvs⟩ :=
    loggedValuesGo_clean_ok (okSpansNamed spans top "named-value") [] hnv
      (by rw [List.nil_append]; exact hnd)
  obtain ⟨arts, harts⟩ := artefactsGo_clean_ok _ har
  unfold task_run_one
  simp only [lookupE_of_isSome _ _ hnb, except_bind_ok, get_logged_named_values_new,
    hlvs, artefact_iterator_new, harts]
  rw [if_pos h0x]
  exact ⟨_, rfl⟩

/-- Clean execute-task span with a duplicated logged-value name: the
task-run construction fails with the duplicate-logged-value error. -/
theorem task_run_one_dup (tid : String) (pattrs : List (String × String))
    (spans : List SpanRec) (top : SpanRec)
    (hc : cleanTask spans pattrs top = true)
    (hnd : ¬ (namesOf (okSpansNamed spans top "named-value")).Nodup) :
    ∃ nm, task_run_one tid pattrs spans top
      = .error (.duplicateLoggedValue nm) := by
  unfold cleanTask at hc
  simp only [Bool.and_eq_true] at hc
  obtain ⟨⟨⟨hnb, h0x⟩, hnv⟩, har⟩ := hc
  obtain ⟨nm, hdup⟩ :=
    loggedValuesGo_dup_error (okSpansNamed spans top "named-value") [] hnv
      List.nodup_nil (by rw [List.nil_append]; exact hnd)
  refine ⟨nm, ?_⟩
  unfold task_run_one
  simp only [lookupE_of_isSome _ _ hnb, except_bind_ok, get_logged_named_values_new,
    hdup, except_bind_error]

/-- Distinct logged-value names: `task_run_one` never fails with the
duplicate-logged-value error. -/
theorem task_run_one_not_dup (tid : String) (pattrs : List (String × String))
    (spans : List SpanRec) (top : SpanRec)
    (hnd : (namesOf (okSpansNamed spans top "named-value")).Nodup) :
    ∀ nm, task_run_one tid pattrs spans top
      ≠ .error (.duplicateLoggedValue nm) := by
  intro nm heq
  unfold task_run_one at heq
  cases hlk : lookupE
      (dictMerge pattrs (get_attributes (bound_inclusive spans top) ["task."]))
      "task.notebook" with
  | error e =>
    simp only [hlk, except_bind_error] at heq
    injection heq with h2
    rw [lookupE_error _ _ e hlk] at h2
    exact PyErr.noConfusion h2
  | ok nb =>
    simp only [hlk, except_bind_ok] at heq
    cases hlv : get_logged_named_values_new spans top with
    | error e =>
      simp only [hlv, except_bind_error] at heq
      injection heq with h2
      apply loggedValuesGo_not_dup (okSpansNamed spans top "named-value") []
        (by rw [List.nil_append]; exact hnd) nm
      rw [show loggedValuesGo [] (okSpansNamed spans top "named-value")
          = get_logged_named_values_new spans top from rfl, hlv, h2]
    | ok lvs =>
      simp only [hlv, except_bind_ok] at heq
      cases hart : artefact_iterator_new spans top with
      | error e =>
        simp only [hart, except_bind_error] at heq
        injection heq with h2
        apply artefactsGo_not_dup (okSpansNamed spans top "artefact") nm
        rw [show artefactsGo (okSpansNamed spans top "artefact")
            = artefact_iterator_new spans top from rfl, hart, h2]
      | ok arts =>
        simp only [hart, except_bind_ok] at heq
        by_cases h0 : strStarts top.span_id "0x" = true
        · rw [if_pos h0] at heq
          exact Except.noConfusion heq
        · rw [if_neg h0] at heq
          injection heq with h2
          exact PyErr.noConfusion h2

theorem mapE_not_dup {α β : Type} (f : α → Except PyErr β) (xs : List α)
    (hf : ∀ x ∈ xs, ∀ nm, f x ≠ .error (.duplicateLoggedValue nm)) :
    ∀ nm, mapE f xs ≠ .error (.duplicateLoggedValue nm) := by
  induction xs with
  | nil =>
    intro nm
    simp [mapE]
  | cons x xs ih =>
    intro nm heq
    rw [mapE] at heq
    cases hx : f x with
    | error e =>
      simp only [hx, except_bind_error] at heq
      injection heq with h2
      exact hf x (List.mem_cons_self x xs) nm (by rw [hx, h2])
    | ok y =>
      simp only [hx, except_bind_ok] at heq
      cases hrest : mapE f xs with
      | error e =>
        simp only [hrest, except_bind_error] at heq
        injection heq with h2
        exact ih (fun a ha => hf a (List.mem_cons_of_mem x ha)) nm
          (by rw [hrest, h2])
      | ok ys =>
        simp only [hrest, except_bind_ok] at heq
        exact Except.noConfusion heq

theorem mapE_all_ok {α β : Type} (f : α → Except PyErr β) (xs : List α)
    (hf : ∀ x ∈ xs, ∃ y, f x = .ok y) :
    ∃ ys, mapE f xs = .ok ys := by
  induction xs with
  | nil =>
    exact ⟨[], rfl⟩
  | cons x xs ih =>
    obtain ⟨y, hy⟩ := hf x (List.mem_cons_self x xs)
    obtain ⟨ys, hys⟩ := ih (fun a ha => hf a (List.mem_cons_of_mem x ha))
    exact ⟨y :: ys, by rw [mapE]; simp only [hy, except_bind_ok, hys]⟩

theorem mapE_dup {α β : Type} (f : α → Except PyErr β) (xs : List α)
    (hall : ∀ x ∈ xs,
      (∃ y, f x = .ok y) ∨ (∃ nm, f x = .error (.duplicateLoggedValue nm)))
    (hex : ∃ x ∈ xs, ∃ nm, f x = .error (.duplicateLoggedValue nm)) :
    ∃ nm, mapE f xs = .error (.duplicateLoggedValue nm) := by
  induction xs with
  | nil =>
    obtain ⟨x, hx, -⟩ := hex
    cases hx
  | cons x xs ih =>
    rcases hall x (List.mem_cons_self x xs) with ⟨y, hy⟩ | ⟨nm, hnm⟩
    · have hex2 : ∃ a ∈ xs, ∃ nm, f a = .error (.duplicateLoggedValue nm) := by
        obtain ⟨a, ha, nm, hna⟩ := hex
        rcases List.mem_cons.mp ha with rfl | ha2
        · rw [hy] at hna
          exact Except.noConfusion hna
        · exact ⟨a, ha2, nm, hna⟩
      obtain ⟨nmr, hrec⟩ := ih (fun a ha => hall a (List.mem_cons_of_mem x ha)) hex2
      exact ⟨nmr, by rw [mapE]; simp only [hy, except_bind_ok, hrec, except_bind_error]⟩
    · exact ⟨nm, by rw [mapE]; simp only [hnm, except_bind_error]⟩

theorem extract_deps_not_dup (spans : List SpanRec) :
    ∀ nm, extract_task_dependencies spans ≠ .error (.duplicateLoggedValue nm) := by
  intro nm heq
  unfold extract_task_dependencies at heq
  have hf : ∀ s ∈ filterByName spans "task-dependency", ∀ nm2,
      (fun s => (attrOf s "from_task_span_id").bind (fun f =>
        (attrOf s "to_task_span_id").bind (fun t =>
          (.ok (f, t) : Except PyErr (String × String))))) s
        ≠ .error (.duplicateLoggedValue nm2) := by
    intro s _ nm2 heq2
    simp only at heq2
    cases hf1 : attrOf s "from_task_span_id" with
    | error e2 =>
      simp only [hf1, except_bind_error] at heq2
      injection heq2 with h3
      rw [attrOf_error _ _ _ hf1] at h3
      exact PyErr.noConfusion h3
    | ok fv =>
      simp only [hf1, except_bind_ok] at heq2
      cases hf2 : attrOf s "to_task_span_id" with
      | error e2 =>
        simp only [hf2, except_bind_error] at heq2
        injection heq2 with h3
        rw [attrOf_error _ _ _ hf2] at h3
        exact PyErr.noConfusion h3
      | ok tv =>
        simp only [hf2, except_bind_ok] at heq2
        exact Except.noConfusion heq2
  cases hm : mapE (fun s => (attrOf s "from_task_span_id").bind (fun f =>
      (attrOf s "to_task_span_id").bind (fun t =>
        (.ok (f, t) : Except PyErr (String × String)))))
      (filterByName spans "task-dependency") with
  | error e =>
    simp only [hm, except_bind_error] at heq
    injection heq with h2
    exact mapE_not_dup _ _ hf nm (by rw [hm, h2])
  | ok ps =>
    simp only [hm, except_bind_ok] at heq
    exact Except.noConfusion heq

theorem extract_deps_clean_ok (spans : List SpanRec)
    (h : ∀ s ∈ filterByName spans "task-dependency", depSpanClean s = true) :
    ∃ ds, extract_task_dependencies spans = .ok ds := by
  have hf : ∀ s ∈ filterByName spans "task-dependency", ∃ y,
      (fun s => (attrOf s "from_task_span_id").bind (fun f =>
        (attrOf s "to_task_span_id").bind (fun t =>
          (.ok (f, t) : Except PyErr (String × String))))) s = .ok y := by
    intro s hs
    have hds := h s hs
    unfold depSpanClean at hds
    rw [Bool.and_eq_true] at hds
    refine ⟨((s.attributes.lookup "from_task_span_id").getD "",
      (s.attributes.lookup "to_task_span_id").getD ""), ?_⟩
    simp only [attrOf, lookupE_of_isSome _ _ hds.1, except_bind_ok,
      lookupE_of_isSome _ _ hds.2]
  obtain ⟨ys, hys⟩ := mapE_all_ok _ _ hf
  refine ⟨pySet ys, ?_⟩
  unfold extract_task_dependencies
  simp only [hys, except_bind_ok]

theorem minE_cons (x : String) (xs : List String) :
    minE (x :: xs) = .ok (xs.foldl (fun acc s => if strLe acc s then acc else s) x) :=
  rfl

theorem maxE_cons (x : String) (xs : List String) :
    maxE (x :: xs) = .ok (xs.foldl (fun acc s => if strLe s acc then acc else s) x) :=
  rfl

/-- Per-task distinct names: `parse_spans_with` never fails with the
duplicate-logged-value error. -/
theorem parse_spans_with_not_dup (tid : String) (spans : List SpanRec)
    (hnodup : ∀ top ∈ execTasksOf spans,
      (namesOf (okSpansNamed spans top "named-value")).Nodup) :
    ∀ nm, parse_spans_with tid spans ≠ .error (.duplicateLoggedValue nm) := by
  intro nm heq
  unfold parse_spans_with at heq
  cases hd : extract_task_dependencies spans with
  | error e =>
    simp only [hd, except_bind_error] at heq
    injection heq with h2
    exact extract_deps_not_dup spans nm (by rw [hd, h2])
  | ok deps =>
    simp only [hd, except_bind_ok] at heq
    cases hmn : minE (spans.map (fun s => s.start_time)) with
    | error e =>
      simp only [hmn, except_bind_error] at heq
      injection heq with h2
      have hes : e = .emptySequence := by
        unfold minE at hmn
        cases hp : pyMin (spans.map (fun s => s.start_time)) with
        | none =>
          rw [hp] at hmn
          exact (Except.error.inj hmn).symm
        | some v =>
          rw [hp] at hmn
          exact Except.noConfusion hmn
      rw [hes] at h2
      exact PyErr.noConfusion h2
    | ok mn =>
      simp only [hmn, except_bind_ok] at heq
      cases hmx : maxE (spans.map (fun s => s.end_time)) with
      | error e =>
        simp only [hmx, except_bind_error] at heq
        injection heq with h2
        have hes : e = .emptySequence := by
          unfold maxE at hmx
          cases hp : pyMax (spans.map (fun s => s.end_time)) with
          | none =>
            rw [hp] at hmx
            exact (Except.error.inj hmx).symm
          | some v =>
            rw [hp] at hmx
            exact Except.noConfusion hmx
        rw [hes] at h2
        exact PyErr.noConfusion h2
      | ok mx =>
        simp only [hmx, except_bind_ok] at heq
        cases hr : task_run_list tid (get_attributes spans ["pipeline."]) spans with
        | error e =>
          simp only [hr, except_bind_error] at heq
          injection heq with h2
          apply mapE_not_dup
            (task_run_one tid (get_attributes spans ["pipeline."]) spans)
            (execTasksOf spans)
            (fun top htop =>
              task_run_one_not_dup tid _ spans top (hnodup top htop)) nm
          rw [show mapE (task_run_one tid (get_attributes spans ["pipeline."]) spans)
              (execTasksOf spans)
              = task_run_list tid (get_attributes spans ["pipeline."]) spans from rfl,
            hr, h2]
        | ok runs =>
          simp only [hr, except_bind_ok] at heq
          exact Except.noConfusion heq

/-- Clean spans with a per-task duplicate: `parse_spans_with` fails with
the duplicate-logged-value error. -/
theorem parse_spans_with_dup (tid : String) (spans : List SpanRec)
    (hclean : ∀ top ∈ execTasksOf spans,
      cleanTask spans (get_attributes spans ["pipeline."]) top = true)
    (hdeps : ∀ s ∈ filterByName spans "task-dependency", depSpanClean s = true)
    (hdup : ∃ top ∈ execTasksOf spans,
      ¬ (namesOf (okSpansNamed spans top "named-value")).Nodup) :
    ∃ nm, parse_spans_with tid spans = .error (.duplicateLoggedValue nm) := by
  obtain ⟨top0, htop0, hdup0⟩ := hdup
  cases spans with
  | nil =>
    exfalso
    have hnil : execTasksOf ([] : List SpanRec) = [] := rfl
    rw [hnil] at htop0
    cases htop0
  | cons s0 rest =>
    obtain ⟨ds, hds⟩ := extract_deps_clean_ok _ hdeps
    obtain ⟨nm, hrl⟩ : ∃ nm,
        task_run_list tid (get_attributes (s0 :: rest) ["pipeline."]) (s0 :: rest)
          = .error (.duplicateLoggedValue nm) := by
      apply mapE_dup
      · intro top htop
        by_cases hnd : (namesOf (okSpansNamed (s0 :: rest) top "named-value")).Nodup
        · exact Or.inl (task_run_one_clean_ok _ _ _ _ (hclean top htop) hnd)
        · exact Or.inr (task_run_one_dup _ _ _ _ (hclean top htop) hnd)
      · exact ⟨top0, htop0, task_run_one_dup _ _ _ _ (hclean top0 htop0) hdup0⟩
    refine ⟨nm, ?_⟩
    unfold parse_spans_with
    simp only [hds, except_bind_ok, List.map_cons, minE_cons, maxE_cons, hrl,
      except_bind_error]

/-- C5: when every execute-task scope is otherwise well formed (exact
key sets, known type tags, available `task.notebook` attributes, decodable
artefacts, dependency spans with both endpoint ids), a logged-value name
repeated inside one scope makes `parse_spans` fail with the
duplicate-logged-value `ValueError`; and whenever every scope's names are
distinct, `parse_spans` never raises that error. -/
theorem claim_C5_duplicate_logged_value_error :
    (∀ (u : String) (spans : List SpanRec),
      (∀ top ∈ execTasksOf spans,
        cleanTask spans (get_attributes spans ["pipeline."]) top = true) →
      (∀ s ∈ filterByName spans "task-dependency", depSpanClean s = true) →
      (∃ top ∈ execTasksOf spans,
        ¬ (namesOf (okSpansNamed spans top "named-value")).Nodup) →
      ∃ nm, parse_spans u spans = .error (.duplicateLoggedValue nm))
    ∧ (∀ (u : String) (spans : List SpanRec),
      (∀ top ∈ execTasksOf spans,
        (namesOf (okSpansNamed spans top "named-value")).Nodup) →
      ∀ nm, parse_spans u spans ≠ .error (.duplicateLoggedValue nm)) := by
  constructor
  · intro u spans hclean hdeps hdup
    unfold parse_spans
    cases hl : (get_attributes spans ["pipeline."]).lookup "pipeline.pipeline_run_id" with
    | none => exact parse_spans_with_dup _ spans hclean hdeps hdup
    | some v => exact parse_spans_with_dup _ spans hclean hdeps hdup
  · intro u spans hnodup nm
    unfold parse_spans
    cases hl : (get_attributes spans ["pipeline."]).lookup "pipeline.pipeline_run_id" with
    | none => exact parse_spans_with_not_dup _ spans hnodup nm
    | some v => exact parse_spans_with_not_dup _ spans hnodup nm

/-- C5 witness: a repeated name "x" in one execute-task scope fails with
the duplicate-logged-value error; with distinct names no such error. -/
theorem claim_C5_witness :
    (∃ nm, parse_spans "u" [wExecTask, wNamedValue1, wNamedValue2]
      = .error (.duplicateLoggedValue nm))
    ∧ (∀ nm, parse_spans "u" [wExecTask, wNamedValue1, wNamedValue2b]
      ≠ .error (.duplicateLoggedValue nm)) :=
  ⟨claim_C5_duplicate_logged_value_error.1 "u" [wExecTask, wNamedValue1, wNamedValue2]
      (by decide) (by decide) (by decide),
   claim_C5_duplicate_logged_value_error.2 "u" [wExecTask, wNamedValue1, wNamedValue2b]
      (by decide)⟩

/-- C5 counterexample: a span collection whose one execute-task scope
does contain a duplicated logged-value name, yet `parse_spans` fails with
`KeyError("task.notebook")` — evaluated before the logged values — and not
with the duplicate-logged-value error, because the scope is malformed in
another way.  The claim as stated (every collection with an in-scope
duplicate fails with the duplicate error) is therefore false. -/
theorem claim_C5_counterexample :
    parse_spans "u" [wExecTaskNoNb, wNamedValue1, wNamedValue2]
        = .error (.keyError "task.notebook")
    ∧ ∀ nm, parse_spans "u" [wExecTaskNoNb, wNamedValue1, wNamedValue2]
        ≠ .error (.duplicateLoggedValue nm) := by
  constructor
  · rfl
  · intro nm heq
    have h1 : parse_spans "u" [wExecTaskNoNb, wNamedValue1, wNamedValue2]
        = .error (.keyError "task.notebook") := rfl
    rw [h1] at heq
    injection heq with h2
    exact PyErr.noConfusion h2

end PynbDagRunner
